import Mathlib

/-!
# PvP Trading Arena — verification development

Shallow embedding of the two core contracts of the repository:

* `ArenaHook` (Uniswap v4 hook: order board, escrow, matching engine,
  privileged trigger fill) — embedded in namespace `Arena`;
* `ArenaSentinel` (reactive trigger authority on the Reactive Network) —
  embedded in namespace `Sentinel`.

Modelling conventions:

* Addresses, tokens (`Currency`) and hashes are `Nat`; `uint128`/`uint256`
  quantities are `Nat` with explicit `% 2^128` where the code truncates;
  `int256`/`int128` are `Int` with explicit wrap/guard where the code casts.
* A `PoolKey` value itself stands for its keccak fingerprint (`_getPoolId`),
  i.e. the hash is modelled as injective; the venue-fingerprint comparison
  in the code becomes equality of `PoolKey` values.
* Each external entry point is a function `State → args → Except Err (result)`;
  an `.error` outcome models an EVM revert, so the enclosing step semantics
  (`Arena.step`) keeps the pre-state and discards all events — this captures
  the all-or-nothing rollback of a reverted call.
* External token movements are recorded as an event trace (in source order)
  rather than as balances of third parties; only the hook's own custody
  (`State.escrow`, its ERC20 balances) is tracked numerically.  An outbound
  `safeTransfer` from escrow fails when the hook's balance is insufficient;
  inbound `safeTransferFrom` pulls from an untracked external party and is given an
  explicit success flag (`transferOk`), since an ERC20 pull can fail for
  reasons invisible to this state.
-/

namespace Arena

/-- Token / account addresses are natural numbers. -/
abbrev Addr := Nat

/-- The hook contract's own address (escrow custodian), an arbitrary fixed
address distinct from the pool manager's. -/
def hookAddr : Addr := 1

/-- The Uniswap v4 pool manager's address. -/
def poolManagerAddr : Addr := 2

/-- `PoolKey` from `@v4-core/types/PoolKey.sol`:
`(Currency currency0, Currency currency1, uint24 fee, int24 tickSpacing, IHooks hooks)`.
The value doubles as the venue fingerprint (`_getPoolId`, keccak of the five
words, modelled injectively). -/
structure PoolKey where
  currency0 : Addr
  currency1 : Addr
  fee : Nat
  tickSpacing : Int
  hooks : Addr
deriving DecidableEq

/-- `ArenaHook.Order` (src/unnamed/part_001 lines 36–45). -/
structure Order where
  maker : Addr
  sellToken0 : Bool
  amountIn : Nat
  minAmountOut : Nat
  expiry : Nat
  active : Bool
  poolId : PoolKey
  isHuman : Bool
deriving DecidableEq

/-- The all-zero order record a Solidity mapping returns for an unset key. -/
def defaultOrder : Order :=
  { maker := 0, sellToken0 := false, amountIn := 0, minAmountOut := 0
    expiry := 0, active := false, poolId := ⟨0, 0, 0, 0, 0⟩, isHuman := false }

/-- The custom errors of `ArenaHook` (lines 63–71), plus `TransferFailed` for
a reverting ERC20 transfer and `Panic` for a checked-arithmetic overflow. -/
inductive Err
  | NotSentinel
  | NotWhitelisted
  | OrderNotFound
  | OrderNotActive
  | Unauthorized
  | InvalidAmounts
  | AmountOverflow
  | PoolMismatch
  | TransferFailed
  | Panic
deriving DecidableEq

/-- Observable actions of a hook call, in source order: storage mutations of
the order board / index, ERC20 transfers executed or pulled by the hook, and
pool-manager interactions. -/
inductive Event
  | orderStored (orderId : Nat)
  | setInactive (orderId : Nat)
  | indexAppend (key : PoolKey) (orderId : Nat)
  | indexRemove (key : PoolKey) (orderId : Nat)
  | transfer (token src dst amount : Nat)
  | pmTake (token : Addr) (dst : Addr) (amount : Nat)
  | pmSync (token : Addr)
  | pmSettle
deriving DecidableEq

/-- Contract storage of `ArenaHook` (lines 76–82).  `escrow` is the hook's own
ERC20 balance per token address (the ledger custody). -/
structure State where
  sentinel : Addr
  nextOrderId : Nat
  orders : Nat → Order
  poolOrders : PoolKey → List Nat
  escrow : Addr → Nat

/-- Freshly deployed hook: no orders, no custody, sentinel unset (zero). -/
def initialState : State :=
  { sentinel := 0, nextOrderId := 0, orders := fun _ => defaultOrder
    poolOrders := fun _ => [], escrow := fun _ => 0 }

/-- `MAX_ITERATIONS` (line 73). -/
def MAX_ITERATIONS : Nat := 50

/-- `_removeOrder`'s in-loop replacement (lines 424–433): replace the first
occurrence of `y` by `b` (the array's last element); `none` if absent. -/
def swapFirst (b : Nat) : List Nat → Nat → Option (List Nat)
  | [], _ => none
  | x :: xs, y => if x = y then some (b :: xs) else (swapFirst b xs y).map (x :: ·)

/-- `ArenaHook._removeOrder` (lines 424–433): find the first index holding
`orderId`, overwrite it with the last element, pop the array; no-op when the
id is absent. -/
def removeOrder (ids : List Nat) (orderId : Nat) : List Nat :=
  match swapFirst (ids.getLastD 0) ids orderId with
  | none => ids
  | some l => l.dropLast

/-- `ArenaHook.postOrder` (lines 114–153).  `origin` is `tx.origin`;
`transferOk` models whether the inbound `safeTransferFrom` of the deposit
succeeds.  Returns the new order id with the post-state and event trace. -/
def postOrder (s : State) (sender origin : Addr) (key : PoolKey)
    (sellToken0 : Bool) (amountIn minAmountOut duration timestamp : Nat)
    (transferOk : Bool) : Except Err (Nat × State × List Event) :=
  if amountIn = 0 then .error .InvalidAmounts
  else
    let poolId := key
    let orderId := s.nextOrderId
    let o : Order :=
      { maker := sender, sellToken0 := sellToken0, amountIn := amountIn
        minAmountOut := minAmountOut, expiry := timestamp + duration
        active := true, poolId := poolId, isHuman := decide (origin = sender) }
    let tokenIn := if sellToken0 then key.currency0 else key.currency1
    if transferOk then
      .ok (orderId,
        { s with
            nextOrderId := orderId + 1
            orders := Function.update s.orders orderId o
            poolOrders := Function.update s.poolOrders poolId
              (s.poolOrders poolId ++ [orderId])
            escrow := Function.update s.escrow tokenIn
              (s.escrow tokenIn + amountIn) },
        [.orderStored orderId,
         .transfer tokenIn sender hookAddr amountIn,
         .indexAppend poolId orderId])
    else .error .TransferFailed

/-- `ArenaHook.cancelOrder` (lines 155–176). -/
def cancelOrder (s : State) (sender : Addr) (orderId : Nat) (key : PoolKey) :
    Except Err (State × List Event) :=
  let order := s.orders orderId
  if s.nextOrderId ≤ orderId then .error .OrderNotFound
  else if sender ≠ order.maker then .error .Unauthorized
  else if order.active = false then .error .OrderNotActive
  else
    let poolId := key
    if poolId ≠ order.poolId then .error .PoolMismatch
    else
      let tokenIn := if order.sellToken0 then key.currency0 else key.currency1
      if s.escrow tokenIn < order.amountIn then .error .TransferFailed
      else
        .ok ({ s with
                orders := Function.update s.orders orderId { order with active := false }
                poolOrders := Function.update s.poolOrders poolId
                  (removeOrder (s.poolOrders poolId) orderId)
                escrow := Function.update s.escrow tokenIn
                  (s.escrow tokenIn - order.amountIn) },
             [.setInactive orderId,
              .indexRemove poolId orderId,
              .transfer tokenIn hookAddr order.maker order.amountIn])

/-- `ArenaHook.triggerOrder` (lines 182–225).  Note the source order of
effects: the two settlement transfers (lines 209–219) come first, the
`active` flag is cleared afterwards (line 221).  `transferOk` models the
inbound `safeTransferFrom` pulling `minAmountOut` from the beneficiary. -/
def triggerOrder (s : State) (sender : Addr) (orderId : Nat) (key : PoolKey)
    (beneficiary : Addr) (transferOk : Bool) : Except Err (State × List Event) :=
  if sender ≠ s.sentinel then .error .NotSentinel
  else
    let order := s.orders orderId
    if order.active = false then .error .OrderNotActive
    else if key ≠ order.poolId then .error .PoolMismatch
    else
      let tokenIn := if order.sellToken0 then key.currency0 else key.currency1
      let tokenOut := if order.sellToken0 then key.currency1 else key.currency0
      if transferOk = false then .error .TransferFailed
      else if s.escrow tokenIn < order.amountIn then .error .TransferFailed
      else
        .ok ({ s with
                orders := Function.update s.orders orderId { order with active := false }
                poolOrders := Function.update s.poolOrders key
                  (removeOrder (s.poolOrders key) orderId)
                escrow := Function.update s.escrow tokenIn
                  (s.escrow tokenIn - order.amountIn) },
             [.transfer tokenOut beneficiary order.maker order.minAmountOut,
              .transfer tokenIn hookAddr beneficiary order.amountIn,
              .setInactive orderId,
              .indexRemove key orderId])

/-- `type(int256).min`. -/
def intMin256 : Int := -((2 ^ 255 : Nat) : Int)

/-- `int128(uint128(n))`: truncate to 128 bits, then reinterpret as a signed
two's-complement value. -/
def toInt128 (n : Nat) : Int :=
  let m : Nat := n % 2 ^ 128
  if m < 2 ^ 127 then (m : Int) else (m : Int) - ((2 ^ 128 : Nat) : Int)

/-- The `BeforeSwapDelta` returned to the pool manager. -/
structure SwapDelta where
  specified : Int
  unspecified : Int
deriving DecidableEq

/-- `BeforeSwapDeltaLibrary.ZERO_DELTA`. -/
def zeroDelta : SwapDelta := ⟨0, 0⟩

/-- The scan loop of `beforeSwap` (lines 263–277): first id in the examined
prefix whose order is active, unexpired, sells the side opposite to the
taker, and whose `minAmountOut` the taker's amount covers.  All reads before
the first mutation are pure, so the loop prefix is a pure search. -/
def findMatch (s : State) (timestamp : Nat) (zeroForOne : Bool)
    (takerAmountIn : Nat) : List Nat → Option Nat
  | [] => none
  | id :: rest =>
    let order := s.orders id
    if order.active = false ∨ order.expiry < timestamp then
      findMatch s timestamp zeroForOne takerAmountIn rest
    else if order.sellToken0 = zeroForOne then
      findMatch s timestamp zeroForOne takerAmountIn rest
    else if takerAmountIn < order.minAmountOut then
      findMatch s timestamp zeroForOne takerAmountIn rest
    else some id

/-- Body of `beforeSwap` from the index lookup down (lines 256–332): bounded
scan, then the match effects of lines 279–325.  The `-int128(...)` negation
is checked arithmetic, so it reverts (`Panic`) at `int128` minimum. -/
def matchScan (s : State) (sender : Addr) (key : PoolKey) (zeroForOne : Bool)
    (takerAmountIn timestamp : Nat) : Except Err (SwapDelta × State × List Event) :=
  let poolId := key
  let orderIds := s.poolOrders poolId
  let maxIter := if orderIds.length < MAX_ITERATIONS then orderIds.length else MAX_ITERATIONS
  match findMatch s timestamp zeroForOne takerAmountIn (orderIds.take maxIter) with
  | none => .ok (zeroDelta, s, [])
  | some matchedOrderId =>
    let order := s.orders matchedOrderId
    let inputCurrency := if zeroForOne then key.currency0 else key.currency1
    let outputCurrency := if zeroForOne then key.currency1 else key.currency0
    let takerPays := order.minAmountOut
    if s.escrow outputCurrency < order.amountIn then .error .TransferFailed
    else if toInt128 order.amountIn = -((2 ^ 127 : Nat) : Int) then .error .Panic
    else
      .ok (⟨toInt128 takerPays, -(toInt128 order.amountIn)⟩,
        { s with
            orders := Function.update s.orders matchedOrderId { order with active := false }
            poolOrders := Function.update s.poolOrders poolId
              (removeOrder (s.poolOrders poolId) matchedOrderId)
            escrow := Function.update s.escrow outputCurrency
              (s.escrow outputCurrency - order.amountIn) },
        [.setInactive matchedOrderId,
         .indexRemove poolId matchedOrderId,
         .pmTake inputCurrency order.maker takerPays,
         .pmSync outputCurrency,
         .transfer outputCurrency hookAddr poolManagerAddr order.amountIn,
         .pmSettle])

/-- `ArenaHook.beforeSwap` (lines 228–333).  `msgSender` is the actual caller
(must be the pool manager, per `onlyPoolManager`); `sender` is the swap
initiator forwarded by the pool manager.  The `uint128(absAmount)` cast on
line 254 is an unchecked truncation, modelled as `% 2^128`. -/
def beforeSwap (s : State) (msgSender sender : Addr) (key : PoolKey)
    (zeroForOne : Bool) (amountSpecified : Int) (timestamp : Nat) :
    Except Err (SwapDelta × State × List Event) :=
  if msgSender ≠ poolManagerAddr then .error .Unauthorized
  else if amountSpecified = intMin256 then .error .AmountOverflow
  else if 0 ≤ amountSpecified then .ok (zeroDelta, s, [])
  else
    matchScan s sender key zeroForOne ((-amountSpecified).toNat % 2 ^ 128) timestamp

/-- `ArenaHook.setSentinel` (lines 106–109): open to any caller. -/
def setSentinel (s : State) (a : Addr) : State := { s with sentinel := a }

/-- One external call into the hook, with all of its arguments. -/
inductive Op
  | post (sender origin : Addr) (key : PoolKey) (sellToken0 : Bool)
      (amountIn minAmountOut duration timestamp : Nat) (transferOk : Bool)
  | cancel (sender : Addr) (orderId : Nat) (key : PoolKey)
  | trigger (sender : Addr) (orderId : Nat) (key : PoolKey)
      (beneficiary : Addr) (transferOk : Bool)
  | swap (msgSender sender : Addr) (key : PoolKey) (zeroForOne : Bool)
      (amountSpecified : Int) (timestamp : Nat)
  | setSent (a : Addr)

/-- Transaction semantics of one call: a revert (`.error`) rolls the state
back and externalises nothing (empty trace). -/
def step (s : State) : Op → State × List Event
  | .post sender origin key st0 aIn mOut dur ts tOk =>
    match postOrder s sender origin key st0 aIn mOut dur ts tOk with
    | .ok (_, s', tr) => (s', tr)
    | .error _ => (s, [])
  | .cancel sender orderId key =>
    match cancelOrder s sender orderId key with
    | .ok (s', tr) => (s', tr)
    | .error _ => (s, [])
  | .trigger sender orderId key ben tOk =>
    match triggerOrder s sender orderId key ben tOk with
    | .ok (s', tr) => (s', tr)
    | .error _ => (s, [])
  | .swap msgSender sender key z a ts =>
    match beforeSwap s msgSender sender key z a ts with
    | .ok (_, s', tr) => (s', tr)
    | .error _ => (s, [])
  | .setSent a => (setSentinel s a, [])

/-- Run a sequence of external calls. -/
def runOps (s : State) (ops : List Op) : State :=
  ops.foldl (fun s op => (step s op).1) s

end Arena

namespace Sentinel

/-- `ArenaSentinel.L1_CHAIN_ID` (Sepolia). -/
def L1_CHAIN_ID : Nat := 11155111

/-- `ArenaSentinel.L2_CHAIN_ID` (Base Sepolia). -/
def L2_CHAIN_ID : Nat := 84532

/-- `ArenaSentinel.SWAP_TOPIC_0`: the Uniswap v3 `Swap` event signature hash. -/
def SWAP_TOPIC_0 : Nat :=
  0xc42079f94a6350d7e6235f29174924f928cc2ac818eb64fed8004e115fbcca67

/-- `ArenaSentinel.Trigger` (src/contracts/src/ArenaSentinel.sol lines 26–32). -/
structure Trigger where
  active : Bool
  isLower : Bool
  limitPrice : Nat
  orderId : Nat
  maker : Nat
deriving DecidableEq

/-- Storage of `ArenaSentinel` (lines 22–35). -/
structure SState where
  arenaHook : Nat
  beneficiary : Nat
  triggers : List Trigger
deriving DecidableEq

/-- An `IReactive.LogRecord` as `react` consumes it: subscription fields plus
the abi-decoded non-indexed `Swap` arguments (line 79); only `sqrtPriceX96`
is used. -/
structure LogRecord where
  chain_id : Nat
  topic_0 : Nat
  amount0 : Int
  amount1 : Int
  sqrtPriceX96 : Nat
  liquidity : Nat
  tick : Int
deriving DecidableEq

/-- The cross-domain payload `abi.encodeWithSignature(sig, orderId, beneficiary)`
(lines 102–106), kept symbolic: the canonical signature string plus the two
arguments.  Equality of selectors is equality of signature strings (keccak
modelled injectively). -/
structure Payload where
  sig : String
  orderId : Nat
  beneficiary : Nat
deriving DecidableEq

/-- The signature string the sentinel encodes into its emitted payload
(line 103). -/
def sentinelPayloadSig : String := "triggerOrder(uint256,address)"

/-- Canonical ABI signature of the hook's privileged fill entry point
`ArenaHook.triggerOrder(uint256 orderId, PoolKey calldata key, address
beneficiary)` (src/unnamed/part_001 lines 182–186), with `PoolKey` from
`@v4-core/types/PoolKey.sol` flattened to its five-word tuple
`(address,address,uint24,int24,address)` — the same five words
`_getPoolId` hashes. -/
def arenaHookTriggerOrderSig : String :=
  "triggerOrder(uint256,(address,address,uint24,int24,address),address)"

/-- Observable actions of one `react` call: the one-shot flip of trigger `i`
and the `Callback` emission.  The trace records the trigger's index `i` so a
single emission can be attributed to the trigger that caused it; on chain the
payload alone is emitted. -/
inductive SEvent
  | flip (i : Nat)
  | callback (i : Nat) (chainId target gasBudget : Nat) (payload : Payload)
deriving DecidableEq

/-- `currentPrice` computation of `react` (lines 84–86), under checked
`uint256` arithmetic: `sqrtPriceX96 * sqrtPriceX96 * 1e18 >> 192`, reverting
(`none`) when the product overflows 256 bits. -/
def currentPriceOf (sqrtPriceX96 : Nat) : Option Nat :=
  if sqrtPriceX96 * sqrtPriceX96 * 10 ^ 18 < 2 ^ 256 then
    some ((sqrtPriceX96 * sqrtPriceX96 * 10 ^ 18) >>> 192)
  else none

/-- The trigger condition (lines 93–95). -/
def hit (price : Nat) (t : Trigger) : Bool :=
  if t.isLower then price < t.limitPrice else t.limitPrice < price

/-- The trigger loop of `react` (lines 89–110), carrying the index `i` of the
current entry: an inactive trigger is skipped; a hit trigger is flipped
(`active := false`) first and its callback emitted second. -/
def reactLoop (benef hook price : Nat) : Nat → List Trigger → List Trigger × List SEvent
  | _, [] => ([], [])
  | i, t :: rest =>
    let r := reactLoop benef hook price (i + 1) rest
    if t.active = false then (t :: r.1, r.2)
    else if hit price t then
      ({ t with active := false } :: r.1,
       .flip i ::
       .callback i L2_CHAIN_ID hook 500000 ⟨sentinelPayloadSig, t.orderId, benef⟩ ::
       r.2)
    else (t :: r.1, r.2)

/-- `ArenaSentinel.react` (lines 72–111).  Foreign log records are ignored;
an overflowing price computation reverts the call (no state change, no
emission). -/
def react (st : SState) (log : LogRecord) : SState × List SEvent :=
  if log.chain_id ≠ L1_CHAIN_ID ∨ log.topic_0 ≠ SWAP_TOPIC_0 then (st, [])
  else
    match currentPriceOf log.sqrtPriceX96 with
    | none => (st, [])
    | some price =>
      let r := reactLoop st.beneficiary st.arenaHook price 0 st.triggers
      ({ st with triggers := r.1 }, r.2)

/-- `ArenaSentinel.addTrigger` (lines 53–68): unauthenticated append of an
armed trigger. -/
def addTrigger (st : SState) (orderId maker limitPrice : Nat) (isLower : Bool) :
    SState :=
  { st with triggers := st.triggers ++
      [{ active := true, isLower := isLower, limitPrice := limitPrice
         orderId := orderId, maker := maker }] }

/-- One external call into the sentinel. -/
inductive SOp
  | reactOp (log : LogRecord)
  | armOp (orderId maker limitPrice : Nat) (isLower : Bool)

/-- One sentinel call: `react` may emit, `addTrigger` never does. -/
def sstep (st : SState) : SOp → SState × List SEvent
  | .reactOp log => react st log
  | .armOp orderId maker limitPrice isLower =>
    (addTrigger st orderId maker limitPrice isLower, [])

/-- Run a sequence of sentinel calls, concatenating the emitted traces. -/
def runSentinel (st : SState) : List SOp → SState × List SEvent
  | [] => (st, [])
  | op :: ops =>
    let r := sstep st op
    let r' := runSentinel r.1 ops
    (r'.1, r.2 ++ r'.2)

/-- Does this event emit the callback attributed to trigger index `i`? -/
def isCallbackAt (i : Nat) : SEvent → Bool
  | .callback j _ _ _ _ => j = i
  | _ => false

/-- Is this event the one-shot flip of trigger index `i`? -/
def isFlipAt (i : Nat) : SEvent → Bool
  | .flip j => j = i
  | _ => false

/-- The trigger index an event concerns. -/
def evIdx : SEvent → Nat
  | .flip j => j
  | .callback j _ _ _ _ => j

/-- Armed status of the trigger at index `i` (false when out of range). -/
def activeAt (ts : List Trigger) (i : Nat) : Bool :=
  match ts[i]? with
  | some t => t.active
  | none => false

end Sentinel

namespace Arena

theorem swapFirst_eq_none (b y : Nat) :
    ∀ l : List Nat, swapFirst b l y = none → y ∉ l := by
  intro l
  induction l with
  | nil => intro _ h; exact absurd h (List.not_mem_nil y)
  | cons x xs ih =>
    intro h hmem
    by_cases hxy : x = y
    · simp [swapFirst, hxy] at h
    · simp [swapFirst, hxy] at h
      rcases List.mem_cons.mp hmem with h1 | h2
      · exact hxy h1.symm
      · exact ih h h2

theorem swapFirst_eq_some (b y : Nat) :
    ∀ l l' : List Nat, swapFirst b l y = some l' →
      ∃ pre suf, l = pre ++ y :: suf ∧ y ∉ pre ∧ l' = pre ++ b :: suf := by
  intro l
  induction l with
  | nil => intro l' h; simp [swapFirst] at h
  | cons x xs ih =>
    intro l' h
    by_cases hxy : x = y
    · refine ⟨[], xs, ?_, ?_, ?_⟩
      · simp [hxy]
      · exact List.not_mem_nil y
      · simp [swapFirst, hxy] at h; simp [← h]
    · simp [swapFirst, hxy] at h
      obtain ⟨l'', h1, h2⟩ := h
      obtain ⟨pre, suf, hl, hpre, hl'⟩ := ih l'' h1
      refine ⟨x :: pre, suf, ?_, ?_, ?_⟩
      · simp [hl]
      · intro hy
        rcases List.mem_cons.mp hy with h3 | h4
        · exact hxy h3.symm
        · exact hpre h4
      · simp [← h2, hl']

theorem removeOrder_of_not_mem {l : List Nat} {y : Nat} (h : y ∉ l) :
    removeOrder l y = l := by
  unfold removeOrder
  cases hsf : swapFirst (l.getLastD 0) l y with
  | none => rfl
  | some l' =>
    obtain ⟨pre, suf, hl, _, _⟩ := swapFirst_eq_some _ _ l l' hsf
    exact absurd (hl ▸ List.mem_append_right pre (List.mem_cons_self y suf)) h

/-- `_removeOrder` removes exactly one (the first) occurrence of `y`: the
result is a permutation of the list with that occurrence deleted. -/
theorem removeOrder_perm {l : List Nat} {y : Nat} (h : y ∈ l) :
    ∃ pre suf, l = pre ++ y :: suf ∧ y ∉ pre ∧ List.Perm (removeOrder l y) (pre ++ suf) := by
  cases hsf : swapFirst (l.getLastD 0) l y with
  | none => exact absurd h (swapFirst_eq_none _ _ l hsf)
  | some l' =>
    have hro : removeOrder l y = l'.dropLast := by
      unfold removeOrder; rw [hsf]
    obtain ⟨pre, suf, hl, hpre, hl'⟩ := swapFirst_eq_some _ _ l l' hsf
    refine ⟨pre, suf, hl, hpre, ?_⟩
    rw [hro]
    rcases suf.eq_nil_or_concat with hnil | ⟨suf', c, hc⟩
    · subst hnil
      have hlast : l.getLastD 0 = y := by rw [hl]; exact List.getLastD_concat 0 y pre
      rw [hl', hlast, List.dropLast_concat]
      simp
    · subst hc
      simp only [List.concat_eq_append] at hl hl' ⊢
      have h2 : l = (pre ++ y :: suf') ++ [c] := by rw [hl]; simp
      have hlast : l.getLastD 0 = c := by
        rw [h2]; exact List.getLastD_concat 0 c (pre ++ y :: suf')
      have h3 : l' = (pre ++ c :: suf') ++ [c] := by rw [hl', hlast]; simp
      rw [h3, List.dropLast_concat]
      exact List.Perm.append_left pre (List.perm_append_singleton c suf').symm

theorem mem_removeOrder_subset {l : List Nat} {y x : Nat}
    (h : x ∈ removeOrder l y) : x ∈ l := by
  by_cases hy : y ∈ l
  · obtain ⟨pre, suf, hl, _, hperm⟩ := removeOrder_perm hy
    have := hperm.mem_iff.mp h
    rw [hl]
    rcases List.mem_append.mp this with h1 | h2
    · exact List.mem_append_left _ h1
    · exact List.mem_append_right _ (List.mem_cons_of_mem y h2)
  · rwa [removeOrder_of_not_mem hy] at h

theorem nodup_removeOrder {l : List Nat} (hnd : l.Nodup) (y : Nat) :
    (removeOrder l y).Nodup := by
  by_cases hy : y ∈ l
  · obtain ⟨pre, suf, hl, _, hperm⟩ := removeOrder_perm hy
    refine hperm.nodup_iff.mpr ?_
    rw [hl] at hnd
    exact (List.Nodup.sublist ((List.append_sublist_append_left pre).mpr (List.sublist_cons_self y suf))) hnd
  · rwa [removeOrder_of_not_mem hy]

theorem not_mem_removeOrder {l : List Nat} (hnd : l.Nodup) (y : Nat) :
    y ∉ removeOrder l y := by
  by_cases hy : y ∈ l
  · obtain ⟨pre, suf, hl, _, hperm⟩ := removeOrder_perm hy
    intro hmem
    have := hperm.mem_iff.mp hmem
    rw [hl] at hnd
    have hnd2 := List.Nodup.of_append_right hnd
    rcases List.mem_append.mp this with h1 | h2
    · exact (List.disjoint_of_nodup_append hnd) h1 (List.mem_cons_self y suf)
    · exact (List.nodup_cons.mp hnd2).1 h2
  · rw [removeOrder_of_not_mem hy]; exact hy

end Arena

namespace Arena

/-- The asset an order's maker is selling (the asset locked in escrow for it). -/
def sellAsset (o : Order) : Addr :=
  if o.sellToken0 then o.poolId.currency0 else o.poolId.currency1

/-- The escrow contribution of one order record to asset `a`. -/
def lockedAmt (o : Order) (a : Addr) : Nat :=
  if o.active = true ∧ sellAsset o = a then o.amountIn else 0

/-- Sum of `amountIn` over all active orders selling asset `a` (order ids
beyond `nextOrderId` hold the all-zero inactive record, so the range
captures every order). -/
def escrowSum (s : State) (a : Addr) : Nat :=
  ∑ i ∈ Finset.range s.nextOrderId, lockedAmt (s.orders i) a

/-- Well-formedness of the hook state, as established by the constructor and
preserved by every external call:
* ids not yet issued hold the all-zero record;
* every indexed id belongs to its venue's key and has been issued;
* no venue index contains an id twice;
* the hook's token custody equals the escrow owed to active orders. -/
structure WF (s : State) : Prop where
  fresh : ∀ i, s.nextOrderId ≤ i → s.orders i = defaultOrder
  indexed : ∀ k i, i ∈ s.poolOrders k → (s.orders i).poolId = k ∧ i < s.nextOrderId
  nodup : ∀ k, (s.poolOrders k).Nodup
  escrow_eq : ∀ a, s.escrow a = escrowSum s a

theorem wf_initialState : WF initialState := by
  constructor
  · intro i _; rfl
  · intro k i h; exact absurd h (List.not_mem_nil i)
  · intro k; exact List.nodup_nil
  · intro a; simp [initialState, escrowSum]

/-- Updating one issued order record shifts the escrow sum by exactly that
record's contribution. -/
theorem escrowSum_update (n : Nat) (f : Nat → Order) (id : Nat) (hid : id < n)
    (o' : Order) (a : Addr) :
    (∑ i ∈ Finset.range n, lockedAmt (Function.update f id o' i) a) + lockedAmt (f id) a
      = (∑ i ∈ Finset.range n, lockedAmt (f i) a) + lockedAmt o' a := by
  have hmem : id ∈ Finset.range n := Finset.mem_range.mpr hid
  have hfun : (fun i => lockedAmt (Function.update f id o' i) a)
      = Function.update (fun i => lockedAmt (f i) a) id (lockedAmt o' a) := by
    funext j
    by_cases hj : j = id
    · subst hj; simp
    · simp [Function.update_noteq hj]
  calc (∑ i ∈ Finset.range n, lockedAmt (Function.update f id o' i) a) + lockedAmt (f id) a
      = (∑ i ∈ Finset.range n,
          Function.update (fun i => lockedAmt (f i) a) id (lockedAmt o' a) i) + lockedAmt (f id) a := by
        rw [show (fun i => lockedAmt (Function.update f id o' i) a)
          = Function.update (fun i => lockedAmt (f i) a) id (lockedAmt o' a) from hfun]
    _ = (lockedAmt o' a + ∑ i ∈ Finset.range n \ {id}, lockedAmt (f i) a) + lockedAmt (f id) a := by
        rw [Finset.sum_update_of_mem hmem]
    _ = (∑ i ∈ Finset.range n, lockedAmt (f i) a) + lockedAmt o' a := by
        rw [← Finset.erase_eq]
        have h2 := Finset.add_sum_erase (Finset.range n) (fun i => lockedAmt (f i) a) hmem
        simp only at h2 ⊢
        omega

/-- One order's contribution is at most the whole escrow sum. -/
theorem lockedAmt_le_escrowSum (s : State) (id : Nat) (hid : id < s.nextOrderId) (a : Addr) :
    lockedAmt (s.orders id) a ≤ escrowSum s a := by
  unfold escrowSum
  exact Finset.single_le_sum (f := fun i => lockedAmt (s.orders i) a)
    (fun i _ => Nat.zero_le _) (Finset.mem_range.mpr hid)

end Arena

namespace Arena

/-- The scan-eligibility test of `beforeSwap` (lines 267–277): active,
unexpired, selling the side opposite the taker, ask covered by the taker's
offered amount. -/
def compatible (s : State) (timestamp : Nat) (zeroForOne : Bool)
    (takerAmountIn : Nat) (id : Nat) : Prop :=
  (s.orders id).active = true ∧ timestamp ≤ (s.orders id).expiry ∧
    (s.orders id).sellToken0 ≠ zeroForOne ∧ (s.orders id).minAmountOut ≤ takerAmountIn

instance (s ts z amt id) : Decidable (compatible s ts z amt id) := by
  unfold compatible; infer_instance

theorem findMatch_eq_some {s : State} {ts : Nat} {z : Bool} {amt : Nat} :
    ∀ {l : List Nat} {id : Nat}, findMatch s ts z amt l = some id →
      id ∈ l ∧ compatible s ts z amt id := by
  intro l
  induction l with
  | nil => intro id h; simp [findMatch] at h
  | cons x rest ih =>
    intro id h
    rw [findMatch] at h
    by_cases h1 : (s.orders x).active = false ∨ (s.orders x).expiry < ts
    · rw [if_pos h1] at h
      obtain ⟨hmem, hc⟩ := ih h
      exact ⟨List.mem_cons_of_mem x hmem, hc⟩
    · rw [if_neg h1] at h
      by_cases h2 : (s.orders x).sellToken0 = z
      · rw [if_pos h2] at h
        obtain ⟨hmem, hc⟩ := ih h
        exact ⟨List.mem_cons_of_mem x hmem, hc⟩
      · rw [if_neg h2] at h
        by_cases h3 : amt < (s.orders x).minAmountOut
        · rw [if_pos h3] at h
          obtain ⟨hmem, hc⟩ := ih h
          exact ⟨List.mem_cons_of_mem x hmem, hc⟩
        · rw [if_neg h3] at h
          cases h
          push_neg at h1
          exact ⟨List.mem_cons_self x rest,
            Bool.not_eq_false _ ▸ h1.1, h1.2, h2, Nat.le_of_not_lt h3⟩

theorem findMatch_skips_incompatible {s : State} {ts : Nat} {z : Bool} {amt : Nat}
    {x : Nat} {rest : List Nat} (h : ¬ compatible s ts z amt x) :
    findMatch s ts z amt (x :: rest) = findMatch s ts z amt rest := by
  rw [findMatch]
  unfold compatible at h
  push_neg at h
  by_cases h1 : (s.orders x).active = false ∨ (s.orders x).expiry < ts
  · rw [if_pos h1]
  · rw [if_neg h1]
    push_neg at h1
    have hact : (s.orders x).active = true := Bool.not_eq_false _ ▸ h1.1
    have hexp : ts ≤ (s.orders x).expiry := h1.2
    by_cases h2 : (s.orders x).sellToken0 = z
    · rw [if_pos h2]
    · rw [if_neg h2]
      rw [if_pos (h hact hexp h2)]

/-- The scan returns the *first* compatible entry: every entry strictly
before the match in the scanned list is incompatible. -/
theorem findMatch_first {s : State} {ts : Nat} {z : Bool} {amt : Nat} :
    ∀ {pre : List Nat} {id : Nat} (suf : List Nat),
      findMatch s ts z amt (pre ++ id :: suf) = some id → id ∉ pre →
      ∀ j ∈ pre, ¬ compatible s ts z amt j := by
  intro pre
  induction pre with
  | nil => intro id suf _ _ j hj; exact absurd hj (List.not_mem_nil j)
  | cons x rest ih =>
    intro id suf h hnm j hj
    by_cases hcx : compatible s ts z amt x
    · exfalso
      obtain ⟨hact, hexp, hside, hamt⟩ := hcx
      rw [List.cons_append, findMatch] at h
      rw [if_neg (by simp [hact]; omega), if_neg hside, if_neg (Nat.not_lt.mpr hamt)] at h
      cases h
      exact hnm (List.mem_cons_self _ _)
    · rcases List.mem_cons.mp hj with hjx | hjr
      · exact hjx ▸ hcx
      · have h' : findMatch s ts z amt (rest ++ id :: suf) = some id := by
          rw [List.cons_append] at h
          rw [← findMatch_skips_incompatible hcx]
          exact h
        exact ih suf h' (fun hm => hnm (List.mem_cons_of_mem x hm)) j hjr

end Arena

namespace Arena

theorem wf_postOrder {s : State} (hwf : WF s) {sender origin : Addr} {key : PoolKey}
    {st0 : Bool} {aIn mOut dur ts : Nat} {tOk : Bool} {id : Nat} {s' : State}
    {tr : List Event}
    (h : postOrder s sender origin key st0 aIn mOut dur ts tOk = .ok (id, s', tr)) :
    WF s' := by
  unfold postOrder at h
  by_cases h0 : aIn = 0
  · rw [if_pos h0] at h; cases h
  · rw [if_neg h0] at h
    by_cases h1 : tOk = true
    · rw [if_pos h1] at h
      rw [Except.ok.injEq, Prod.mk.injEq] at h
      obtain ⟨hid, h⟩ := h
      rw [Prod.mk.injEq] at h
      obtain ⟨hs', htr⟩ := h
      subst hs'
      refine ⟨?_, ?_, ?_, ?_⟩
      · intro i hi
        dsimp only at hi ⊢
        rw [Function.update_noteq (by omega)]
        exact hwf.fresh i (by omega)
      · intro k' i hmem
        dsimp only at hmem ⊢
        by_cases hk : k' = key
        · rw [hk, Function.update_same] at hmem
          rcases List.mem_append.mp hmem with hm | hm
          · have hx := hwf.indexed key i hm
            rw [Function.update_noteq (by omega)]
            exact ⟨hx.1.trans hk.symm, by omega⟩
          · have hin : i = s.nextOrderId := by simpa using hm
            subst hin
            rw [Function.update_same]
            exact ⟨hk.symm, by omega⟩
        · rw [Function.update_noteq hk] at hmem
          have hx := hwf.indexed k' i hmem
          rw [Function.update_noteq (by omega)]
          exact ⟨hx.1, by omega⟩
      · intro k'
        dsimp only
        by_cases hk : k' = key
        · rw [hk, Function.update_same]
          have hnm : s.nextOrderId ∉ s.poolOrders key := fun hm => by
            have := (hwf.indexed key s.nextOrderId hm).2; omega
          simp [List.nodup_append, hwf.nodup key, hnm]
        · rw [Function.update_noteq hk]
          exact hwf.nodup k'
      · intro a
        dsimp only [escrowSum]
        rw [Finset.sum_range_succ, Function.update_same]
        have hcongr : ∑ i ∈ Finset.range s.nextOrderId,
            lockedAmt (Function.update s.orders s.nextOrderId
              { maker := sender, sellToken0 := st0, amountIn := aIn
                minAmountOut := mOut, expiry := ts + dur, active := true
                poolId := key, isHuman := decide (origin = sender) } i) a
            = escrowSum s a := by
          refine Finset.sum_congr rfl fun i hi => ?_
          rw [Function.update_noteq (by have := Finset.mem_range.mp hi; omega)]
        rw [hcongr]
        have hlock : lockedAmt
            { maker := sender, sellToken0 := st0, amountIn := aIn
              minAmountOut := mOut, expiry := ts + dur, active := true
              poolId := key, isHuman := decide (origin = sender) } a
            = if (if st0 then key.currency0 else key.currency1) = a then aIn else 0 := by
          simp only [lockedAmt, sellAsset]
          rcases st0 with _ | _ <;> simp
        rw [hlock]
        by_cases ha : a = (if st0 then key.currency0 else key.currency1)
        · rw [ha, Function.update_same, if_pos rfl, hwf.escrow_eq]
        · have ha' : ¬ ((if st0 then key.currency0 else key.currency1) = a) :=
            fun hx => ha hx.symm
          rw [Function.update_noteq ha, if_neg ha', hwf.escrow_eq]
          omega
    · rw [if_neg h1] at h; cases h

end Arena

namespace Arena

/-- Deactivating one issued, active, correctly-indexed order and releasing
its escrow preserves well-formedness.  This is the common state change of
`cancelOrder`, `triggerOrder` and a `beforeSwap` match. -/
theorem wf_deactivate {s : State} (hwf : WF s) {id : Nat} {key : PoolKey}
    (hlt : id < s.nextOrderId) (hact : (s.orders id).active = true)
    (hkey : (s.orders id).poolId = key) (tIn : Addr)
    (htIn : tIn = sellAsset (s.orders id))
    (hge : (s.orders id).amountIn ≤ s.escrow tIn) :
    WF { s with
      orders := Function.update s.orders id { s.orders id with active := false }
      poolOrders := Function.update s.poolOrders key (removeOrder (s.poolOrders key) id)
      escrow := Function.update s.escrow tIn
        (s.escrow tIn - (s.orders id).amountIn) } := by
  refine ⟨?_, ?_, ?_, ?_⟩
  · intro i hi
    dsimp only at hi ⊢
    rw [Function.update_noteq (by omega)]
    exact hwf.fresh i (by omega)
  · intro k' i hmem
    dsimp only at hmem ⊢
    by_cases hk : k' = key
    · rw [hk, Function.update_same] at hmem
      have hmem' := mem_removeOrder_subset hmem
      have hx := hwf.indexed key i hmem'
      by_cases hi : i = id
      · subst hi
        rw [Function.update_same]
        exact ⟨hkey.trans hk.symm, hx.2⟩
      · rw [Function.update_noteq hi]
        exact ⟨hx.1.trans hk.symm, hx.2⟩
    · rw [Function.update_noteq hk] at hmem
      have hx := hwf.indexed k' i hmem
      by_cases hi : i = id
      · subst hi
        exact absurd (hx.1.symm.trans hkey) hk
      · rw [Function.update_noteq hi]
        exact hx
  · intro k'
    dsimp only
    by_cases hk : k' = key
    · rw [hk, Function.update_same]
      exact nodup_removeOrder (hwf.nodup key) id
    · rw [Function.update_noteq hk]
      exact hwf.nodup k'
  · intro a
    dsimp only [escrowSum]
    have hupd := escrowSum_update s.nextOrderId s.orders id hlt
      { s.orders id with active := false } a
    dsimp only at hupd
    have hz : lockedAmt { s.orders id with active := false } a = 0 := by
      simp [lockedAmt]
    dsimp only at hz
    rw [hz] at hupd
    by_cases ha : a = tIn
    · subst ha
      have hla : lockedAmt (s.orders id) a = (s.orders id).amountIn := by
        simp [lockedAmt, hact, htIn.symm]
      rw [Function.update_same]
      have he := hwf.escrow_eq a
      rw [hla] at hupd
      unfold escrowSum at he
      omega
    · have hla : lockedAmt (s.orders id) a = 0 := by
        simp [lockedAmt, lockedAmt, ← htIn]
        intro _ hx
        exact absurd hx.symm ha
      rw [Function.update_noteq ha]
      have he := hwf.escrow_eq a
      rw [hla] at hupd
      unfold escrowSum at he
      omega

end Arena

namespace Arena

theorem wf_cancelOrder {s : State} (hwf : WF s) {sender : Addr} {orderId : Nat}
    {key : PoolKey} {s' : State} {tr : List Event}
    (h : cancelOrder s sender orderId key = .ok (s', tr)) : WF s' := by
  unfold cancelOrder at h
  dsimp only at h
  by_cases h1 : s.nextOrderId ≤ orderId
  · rw [if_pos h1] at h; cases h
  rw [if_neg h1] at h
  by_cases h2 : sender ≠ (s.orders orderId).maker
  · rw [if_pos h2] at h; cases h
  rw [if_neg h2] at h
  by_cases h3 : (s.orders orderId).active = false
  · rw [if_pos h3] at h; cases h
  rw [if_neg h3] at h
  by_cases h4 : key ≠ (s.orders orderId).poolId
  · rw [if_pos h4] at h; cases h
  rw [if_neg h4] at h
  by_cases h5 : s.escrow (if (s.orders orderId).sellToken0 then key.currency0
      else key.currency1) < (s.orders orderId).amountIn
  · rw [if_pos h5] at h; cases h
  rw [if_neg h5] at h
  rw [Except.ok.injEq, Prod.mk.injEq] at h
  obtain ⟨hs', htr⟩ := h
  subst hs'
  push_neg at h4
  have hact : (s.orders orderId).active = true := by
    cases hb : (s.orders orderId).active
    · exact absurd hb h3
    · rfl
  exact wf_deactivate hwf (by omega) hact h4.symm _
    (by simp only [sellAsset]; rw [← h4]) (Nat.le_of_not_lt h5)

theorem wf_triggerOrder {s : State} (hwf : WF s) {sender : Addr} {orderId : Nat}
    {key : PoolKey} {ben : Addr} {tOk : Bool} {s' : State} {tr : List Event}
    (h : triggerOrder s sender orderId key ben tOk = .ok (s', tr)) : WF s' := by
  unfold triggerOrder at h
  dsimp only at h
  by_cases h1 : sender ≠ s.sentinel
  · rw [if_pos h1] at h; cases h
  rw [if_neg h1] at h
  by_cases h2 : (s.orders orderId).active = false
  · rw [if_pos h2] at h; cases h
  rw [if_neg h2] at h
  by_cases h3 : key ≠ (s.orders orderId).poolId
  · rw [if_pos h3] at h; cases h
  rw [if_neg h3] at h
  by_cases h4 : tOk = false
  · rw [if_pos h4] at h; cases h
  rw [if_neg h4] at h
  by_cases h5 : s.escrow (if (s.orders orderId).sellToken0 then key.currency0
      else key.currency1) < (s.orders orderId).amountIn
  · rw [if_pos h5] at h; cases h
  rw [if_neg h5] at h
  rw [Except.ok.injEq, Prod.mk.injEq] at h
  obtain ⟨hs', htr⟩ := h
  subst hs'
  push_neg at h3
  have hact : (s.orders orderId).active = true := by
    cases hb : (s.orders orderId).active
    · exact absurd hb h2
    · rfl
  have hlt : orderId < s.nextOrderId := by
    by_contra hc
    have hdef := hwf.fresh orderId (Nat.le_of_not_lt hc)
    rw [hdef] at hact
    exact absurd hact (by simp [defaultOrder])
  exact wf_deactivate hwf hlt hact h3.symm _
    (by simp only [sellAsset]; rw [← h3]) (Nat.le_of_not_lt h5)

theorem wf_matchScan {s : State} (hwf : WF s) {sender : Addr} {key : PoolKey}
    {z : Bool} {amt ts : Nat} {d : SwapDelta} {s' : State} {tr : List Event}
    (h : matchScan s sender key z amt ts = .ok (d, s', tr)) : WF s' := by
  unfold matchScan at h
  dsimp only at h
  cases hfm : findMatch s ts z amt ((s.poolOrders key).take
      (if (s.poolOrders key).length < MAX_ITERATIONS then (s.poolOrders key).length
        else MAX_ITERATIONS)) with
  | none =>
    rw [hfm] at h
    dsimp only at h
    rw [Except.ok.injEq, Prod.mk.injEq] at h
    obtain ⟨_, h⟩ := h
    rw [Prod.mk.injEq] at h
    obtain ⟨hs', _⟩ := h
    exact hs' ▸ hwf
  | some id =>
    rw [hfm] at h
    dsimp only at h
    obtain ⟨hmem, hact, hexp, hside, hamt⟩ :=
      And.intro (findMatch_eq_some hfm).1 (findMatch_eq_some hfm).2
    have hidx := hwf.indexed key id (List.mem_of_mem_take hmem)
    by_cases h5 : s.escrow (if z then key.currency1 else key.currency0)
        < (s.orders id).amountIn
    · rw [if_pos h5] at h; cases h
    rw [if_neg h5] at h
    by_cases h6 : toInt128 (s.orders id).amountIn = -((2 ^ 127 : Nat) : Int)
    · rw [if_pos h6] at h; cases h
    rw [if_neg h6] at h
    rw [Except.ok.injEq, Prod.mk.injEq] at h
    obtain ⟨_, h⟩ := h
    rw [Prod.mk.injEq] at h
    obtain ⟨hs', _⟩ := h
    subst hs'
    refine wf_deactivate hwf hidx.2 hact hidx.1 _ ?_ (Nat.le_of_not_lt h5)
    simp only [sellAsset]
    rw [hidx.1]
    cases hz : z
    · have hs0 : (s.orders id).sellToken0 = true := by
        cases hb : (s.orders id).sellToken0
        · exact absurd (hb.trans hz.symm) hside
        · rfl
      simp [hs0]
    · have hs0 : (s.orders id).sellToken0 = false := by
        cases hb : (s.orders id).sellToken0
        · rfl
        · exact absurd (hb.trans hz.symm) hside
      simp [hs0]

theorem wf_beforeSwap {s : State} (hwf : WF s) {msgSender sender : Addr}
    {key : PoolKey} {z : Bool} {a : Int} {ts : Nat} {d : SwapDelta} {s' : State}
    {tr : List Event}
    (h : beforeSwap s msgSender sender key z a ts = .ok (d, s', tr)) : WF s' := by
  unfold beforeSwap at h
  by_cases h1 : msgSender ≠ poolManagerAddr
  · rw [if_pos h1] at h; cases h
  rw [if_neg h1] at h
  by_cases h2 : a = intMin256
  · rw [if_pos h2] at h; cases h
  rw [if_neg h2] at h
  by_cases h3 : 0 ≤ a
  · rw [if_pos h3] at h
    rw [Except.ok.injEq, Prod.mk.injEq] at h
    obtain ⟨_, h⟩ := h
    rw [Prod.mk.injEq] at h
    exact h.1 ▸ hwf
  · rw [if_neg h3] at h
    exact wf_matchScan hwf h

theorem wf_step {s : State} (hwf : WF s) (op : Op) : WF (step s op).1 := by
  cases op with
  | post sender origin key st0 aIn mOut dur ts tOk =>
    simp only [step]
    cases hop : postOrder s sender origin key st0 aIn mOut dur ts tOk with
    | ok v =>
      obtain ⟨id, s', tr⟩ := v
      exact wf_postOrder hwf hop
    | error e => exact hwf
  | cancel sender orderId key =>
    simp only [step]
    cases hop : cancelOrder s sender orderId key with
    | ok v =>
      obtain ⟨s', tr⟩ := v
      exact wf_cancelOrder hwf hop
    | error e => exact hwf
  | trigger sender orderId key ben tOk =>
    simp only [step]
    cases hop : triggerOrder s sender orderId key ben tOk with
    | ok v =>
      obtain ⟨s', tr⟩ := v
      exact wf_triggerOrder hwf hop
    | error e => exact hwf
  | swap msgSender sender key z a ts =>
    simp only [step]
    cases hop : beforeSwap s msgSender sender key z a ts with
    | ok v =>
      obtain ⟨d, s', tr⟩ := v
      exact wf_beforeSwap hwf hop
    | error e => exact hwf
  | setSent a =>
    refine ⟨hwf.fresh, hwf.indexed, hwf.nodup, hwf.escrow_eq⟩

theorem wf_runOps {s : State} (hwf : WF s) (ops : List Op) : WF (runOps s ops) := by
  induction ops generalizing s with
  | nil => exact hwf
  | cons op rest ih => exact ih (wf_step hwf op)

end Arena

namespace Arena

/-- C2: after any sequence of external calls starting from deployment, the
hook's custody of every asset equals the sum of `amountIn` over the active
orders selling that asset (and every unissued id is inactive, so the ranged
sum covers all orders). -/
theorem escrow_equals_active_orders (ops : List Op) (a : Addr) :
    (runOps initialState ops).escrow a = escrowSum (runOps initialState ops) a ∧
    (∀ i, (runOps initialState ops).nextOrderId ≤ i →
      ((runOps initialState ops).orders i).active = false) := by
  have hwf := wf_runOps wf_initialState ops
  refine ⟨hwf.escrow_eq a, fun i hi => ?_⟩
  rw [hwf.fresh i hi]
  rfl

/-- Witness: one posted order on venue `⟨11,22,300,6,1⟩` locks 100 of token
11; the invariant holds there and order id 5 is unissued hence inactive. -/
theorem escrow_equals_active_orders_witness :
    (runOps initialState [Op.post 7 7 ⟨11, 22, 300, 6, 1⟩ true 100 190 1000 5 true]).escrow 11
      = escrowSum (runOps initialState
          [Op.post 7 7 ⟨11, 22, 300, 6, 1⟩ true 100 190 1000 5 true]) 11 ∧
    ((runOps initialState
        [Op.post 7 7 ⟨11, 22, 300, 6, 1⟩ true 100 190 1000 5 true]).orders 5).active = false :=
  ⟨(escrow_equals_active_orders
      [Op.post 7 7 ⟨11, 22, 300, 6, 1⟩ true 100 190 1000 5 true] 11).1,
   (escrow_equals_active_orders
      [Op.post 7 7 ⟨11, 22, 300, 6, 1⟩ true 100 190 1000 5 true] 11).2 5 (by decide)⟩

theorem postOrder_ok_shape {s : State} {sender origin : Addr} {key : PoolKey}
    {st0 : Bool} {aIn mOut dur ts : Nat} {tOk : Bool} {id : Nat} {s' : State}
    {tr : List Event}
    (h : postOrder s sender origin key st0 aIn mOut dur ts tOk = .ok (id, s', tr)) :
    aIn ≠ 0 ∧ tOk = true ∧ id = s.nextOrderId ∧
    s' = { s with
      nextOrderId := s.nextOrderId + 1
      orders := Function.update s.orders s.nextOrderId
        { maker := sender, sellToken0 := st0, amountIn := aIn, minAmountOut := mOut
          expiry := ts + dur, active := true, poolId := key
          isHuman := decide (origin = sender) }
      poolOrders := Function.update s.poolOrders key (s.poolOrders key ++ [s.nextOrderId])
      escrow := Function.update s.escrow (if st0 then key.currency0 else key.currency1)
        (s.escrow (if st0 then key.currency0 else key.currency1) + aIn) } ∧
    tr = [.orderStored s.nextOrderId,
          .transfer (if st0 then key.currency0 else key.currency1) sender hookAddr aIn,
          .indexAppend key s.nextOrderId] := by
  unfold postOrder at h
  dsimp only at h
  by_cases h0 : aIn = 0
  · rw [if_pos h0] at h; cases h
  rw [if_neg h0] at h
  by_cases h1 : tOk = true
  · rw [if_pos h1] at h
    rw [Except.ok.injEq, Prod.mk.injEq] at h
    obtain ⟨hid, h⟩ := h
    rw [Prod.mk.injEq] at h
    exact ⟨h0, h1, hid.symm, h.1.symm, h.2.symm⟩
  · rw [if_neg h1] at h; cases h

theorem cancelOrder_ok_shape {s : State} {sender : Addr} {orderId : Nat}
    {key : PoolKey} {s' : State} {tr : List Event}
    (h : cancelOrder s sender orderId key = .ok (s', tr)) :
    orderId < s.nextOrderId ∧ sender = (s.orders orderId).maker ∧
    (s.orders orderId).active = true ∧ key = (s.orders orderId).poolId ∧
    (s.orders orderId).amountIn ≤ s.escrow (if (s.orders orderId).sellToken0
      then key.currency0 else key.currency1) ∧
    s' = { s with
      orders := Function.update s.orders orderId { s.orders orderId with active := false }
      poolOrders := Function.update s.poolOrders key (removeOrder (s.poolOrders key) orderId)
      escrow := Function.update s.escrow
        (if (s.orders orderId).sellToken0 then key.currency0 else key.currency1)
        (s.escrow (if (s.orders orderId).sellToken0 then key.currency0 else key.currency1)
          - (s.orders orderId).amountIn) } ∧
    tr = [.setInactive orderId,
          .indexRemove key orderId,
          .transfer (if (s.orders orderId).sellToken0 then key.currency0 else key.currency1)
            hookAddr (s.orders orderId).maker (s.orders orderId).amountIn] := by
  unfold cancelOrder at h
  dsimp only at h
  by_cases h1 : s.nextOrderId ≤ orderId
  · rw [if_pos h1] at h; cases h
  rw [if_neg h1] at h
  by_cases h2 : sender ≠ (s.orders orderId).maker
  · rw [if_pos h2] at h; cases h
  rw [if_neg h2] at h
  by_cases h3 : (s.orders orderId).active = false
  · rw [if_pos h3] at h; cases h
  rw [if_neg h3] at h
  by_cases h4 : key ≠ (s.orders orderId).poolId
  · rw [if_pos h4] at h; cases h
  rw [if_neg h4] at h
  by_cases h5 : s.escrow (if (s.orders orderId).sellToken0 then key.currency0
      else key.currency1) < (s.orders orderId).amountIn
  · rw [if_pos h5] at h; cases h
  rw [if_neg h5] at h
  rw [Except.ok.injEq, Prod.mk.injEq] at h
  push_neg at h2 h4
  refine ⟨by omega, h2, ?_, h4, Nat.le_of_not_lt h5, h.1.symm, h.2.symm⟩
  cases hb : (s.orders orderId).active
  · exact absurd hb h3
  · rfl

theorem triggerOrder_ok_shape {s : State} {sender : Addr} {orderId : Nat}
    {key : PoolKey} {ben : Addr} {tOk : Bool} {s' : State} {tr : List Event}
    (h : triggerOrder s sender orderId key ben tOk = .ok (s', tr)) :
    sender = s.sentinel ∧ (s.orders orderId).active = true ∧
    key = (s.orders orderId).poolId ∧ tOk = true ∧
    (s.orders orderId).amountIn ≤ s.escrow (if (s.orders orderId).sellToken0
      then key.currency0 else key.currency1) ∧
    s' = { s with
      orders := Function.update s.orders orderId { s.orders orderId with active := false }
      poolOrders := Function.update s.poolOrders key (removeOrder (s.poolOrders key) orderId)
      escrow := Function.update s.escrow
        (if (s.orders orderId).sellToken0 then key.currency0 else key.currency1)
        (s.escrow (if (s.orders orderId).sellToken0 then key.currency0 else key.currency1)
          - (s.orders orderId).amountIn) } ∧
    tr = [.transfer (if (s.orders orderId).sellToken0 then key.currency1 else key.currency0)
            ben (s.orders orderId).maker (s.orders orderId).minAmountOut,
          .transfer (if (s.orders orderId).sellToken0 then key.currency0 else key.currency1)
            hookAddr ben (s.orders orderId).amountIn,
          .setInactive orderId,
          .indexRemove key orderId] := by
  unfold triggerOrder at h
  dsimp only at h
  by_cases h1 : sender ≠ s.sentinel
  · rw [if_pos h1] at h; cases h
  rw [if_neg h1] at h
  by_cases h2 : (s.orders orderId).active = false
  · rw [if_pos h2] at h; cases h
  rw [if_neg h2] at h
  by_cases h3 : key ≠ (s.orders orderId).poolId
  · rw [if_pos h3] at h; cases h
  rw [if_neg h3] at h
  by_cases h4 : tOk = false
  · rw [if_pos h4] at h; cases h
  rw [if_neg h4] at h
  by_cases h5 : s.escrow (if (s.orders orderId).sellToken0 then key.currency0
      else key.currency1) < (s.orders orderId).amountIn
  · rw [if_pos h5] at h; cases h
  rw [if_neg h5] at h
  rw [Except.ok.injEq, Prod.mk.injEq] at h
  push_neg at h1 h3
  refine ⟨h1, ?_, h3, ?_, Nat.le_of_not_lt h5, h.1.symm, h.2.symm⟩
  · cases hb : (s.orders orderId).active
    · exact absurd hb h2
    · rfl
  · cases hb : tOk
    · exact absurd hb h4
    · rfl

end Arena

namespace Arena

/-- The trace a fill-path call externalised (empty on revert). -/
def fillTrace : Except Err (State × List Event) → List Event
  | .ok (_, tr) => tr
  | .error _ => []

/-- The trace a swap-path call externalised (empty on revert). -/
def swapTrace : Except Err (SwapDelta × State × List Event) → List Event
  | .ok (_, _, tr) => tr
  | .error _ => []

/-- Storage mutations of the order board (activation flips, index edits,
order-record writes). -/
def isStateMutation : Event → Bool
  | .orderStored _ => true
  | .setInactive _ => true
  | .indexAppend _ _ => true
  | .indexRemove _ _ => true
  | _ => false

/-- The activation flip itself. -/
def isActiveFlip : Event → Bool
  | .setInactive _ => true
  | _ => false

/-- External token movements (ERC20 transfers by the hook and pool-manager
`take`). -/
def isExternalTransfer : Event → Bool
  | .transfer _ _ _ _ => true
  | .pmTake _ _ _ => true
  | _ => false

/-- The loop bound `maxIter` caps the scanned prefix at `MAX_ITERATIONS`
entries: taking `min length 50` is taking `50`. -/
theorem take_maxIter_eq (l : List Nat) :
    l.take (if l.length < MAX_ITERATIONS then l.length else MAX_ITERATIONS)
      = l.take MAX_ITERATIONS := by
  by_cases h : l.length < MAX_ITERATIONS
  · rw [if_pos h, List.take_length, List.take_of_length_le (Nat.le_of_lt h)]
  · rw [if_neg h]

theorem matchScan_none_shape {s : State} {sender : Addr} {key : PoolKey}
    {z : Bool} {amt ts : Nat}
    (hfm : findMatch s ts z amt ((s.poolOrders key).take MAX_ITERATIONS) = none) :
    matchScan s sender key z amt ts = .ok (zeroDelta, s, []) := by
  unfold matchScan
  dsimp only
  rw [take_maxIter_eq, hfm]

theorem matchScan_some_shape {s : State} {sender : Addr} {key : PoolKey}
    {z : Bool} {amt ts : Nat} {id : Nat}
    (hfm : findMatch s ts z amt ((s.poolOrders key).take MAX_ITERATIONS) = some id)
    (hesc : (s.orders id).amountIn ≤ s.escrow (if z then key.currency1 else key.currency0))
    (hpanic : toInt128 (s.orders id).amountIn ≠ -((2 ^ 127 : Nat) : Int)) :
    matchScan s sender key z amt ts =
      .ok (⟨toInt128 (s.orders id).minAmountOut, -(toInt128 (s.orders id).amountIn)⟩,
        { s with
          orders := Function.update s.orders id { s.orders id with active := false }
          poolOrders := Function.update s.poolOrders key (removeOrder (s.poolOrders key) id)
          escrow := Function.update s.escrow (if z then key.currency1 else key.currency0)
            (s.escrow (if z then key.currency1 else key.currency0) - (s.orders id).amountIn) },
        [.setInactive id,
         .indexRemove key id,
         .pmTake (if z then key.currency0 else key.currency1)
           (s.orders id).maker (s.orders id).minAmountOut,
         .pmSync (if z then key.currency1 else key.currency0),
         .transfer (if z then key.currency1 else key.currency0) hookAddr poolManagerAddr
           (s.orders id).amountIn,
         .pmSettle]) := by
  unfold matchScan
  dsimp only
  rw [take_maxIter_eq, hfm]
  dsimp only
  rw [if_neg (Nat.not_lt.mpr hesc), if_neg hpanic]

/-- Inverse direction: a successful `matchScan` is one of the two shapes. -/
theorem matchScan_ok_cases {s : State} {sender : Addr} {key : PoolKey}
    {z : Bool} {amt ts : Nat} {d : SwapDelta} {s' : State} {tr : List Event}
    (h : matchScan s sender key z amt ts = .ok (d, s', tr)) :
    (findMatch s ts z amt ((s.poolOrders key).take MAX_ITERATIONS) = none ∧
      d = zeroDelta ∧ s' = s ∧ tr = []) ∨
    (∃ id, findMatch s ts z amt ((s.poolOrders key).take MAX_ITERATIONS) = some id) := by
  unfold matchScan at h
  dsimp only at h
  rw [take_maxIter_eq] at h
  cases hfm : findMatch s ts z amt ((s.poolOrders key).take MAX_ITERATIONS) with
  | none =>
    rw [hfm] at h
    dsimp only at h
    rw [Except.ok.injEq, Prod.mk.injEq] at h
    obtain ⟨hd, h⟩ := h
    rw [Prod.mk.injEq] at h
    exact Or.inl ⟨rfl, hd.symm, h.1.symm, h.2.symm⟩
  | some id => exact Or.inr ⟨id, rfl⟩

theorem beforeSwap_exactInput {s : State} {sender : Addr} {key : PoolKey}
    {z : Bool} {a : Int} {ts : Nat}
    (hmin : a ≠ intMin256) (hneg : a < 0) :
    beforeSwap s poolManagerAddr sender key z a ts
      = matchScan s sender key z ((-a).toNat % 2 ^ 128) ts := by
  unfold beforeSwap
  rw [if_neg (by simp), if_neg hmin, if_neg (by omega)]

end Arena

namespace Arena

/-- A concrete venue key used in concrete scenarios. -/
def demoKey : PoolKey := ⟨11, 22, 300, 6, 1⟩

/-- A concrete hook state: sentinel bound to address 5, one active order
(id 0, maker 7, selling 10 of token 11 for at least 5 of token 22), escrow
holding the locked 10. -/
def demoState : State :=
  { sentinel := 5, nextOrderId := 1
    orders := fun i => if i = 0 then
        { maker := 7, sellToken0 := true, amountIn := 10, minAmountOut := 5
          expiry := 999, active := true, poolId := demoKey, isHuman := false }
      else defaultOrder
    poolOrders := fun k => if k = demoKey then [0] else []
    escrow := fun a => if a = 11 then 10 else 0 }

/-- C1 counterexample: in the trigger-driven fill path the claim fails — on a
concrete successful `triggerOrder` fill the first emitted action is an
external token transfer (index 0) and the `active` flip only comes later
(index 2), so the flip is *not* before every external transfer. -/
theorem trigger_flip_not_first :
    fillTrace (triggerOrder demoState 5 0 demoKey 88 true) ≠ [] ∧
    ¬ (fillTrace (triggerOrder demoState 5 0 demoKey 88 true)).findIdx isActiveFlip
        < (fillTrace (triggerOrder demoState 5 0 demoKey 88 true)).findIdx isExternalTransfer := by
  constructor
  · decide
  · decide

/-- C1 (amended): in the market-side match inside `beforeSwap` the `active`
flip is the first action of the fill, before any external transfer (lines
280 vs 295–312); but in `triggerOrder` both settlement transfers (lines
209–219) precede the flip (line 221): every successful trigger fill's trace
starts with a transfer and flips `active` only at position 2.  (Re-entrancy
is instead excluded by the `nonReentrant` guard.) -/
theorem fill_effect_order :
    (∀ (s : State) (sender : Addr) (key : PoolKey) (z : Bool) (amt ts : Nat)
        (d : SwapDelta) (s' : State) (tr : List Event),
      matchScan s sender key z amt ts = .ok (d, s', tr) → tr ≠ [] →
      tr.findIdx isActiveFlip = 0 ∧ tr.findIdx isStateMutation = 0 ∧
        2 ≤ tr.findIdx isExternalTransfer) ∧
    (∀ (s : State) (sender : Addr) (orderId : Nat) (key : PoolKey) (ben : Addr)
        (tOk : Bool) (s' : State) (tr : List Event),
      triggerOrder s sender orderId key ben tOk = .ok (s', tr) →
      tr.findIdx isExternalTransfer = 0 ∧ tr.findIdx isActiveFlip = 2) := by
  constructor
  · intro s sender key z amt ts d s' tr h hne
    unfold matchScan at h
    dsimp only at h
    cases hfm : findMatch s ts z amt ((s.poolOrders key).take
        (if (s.poolOrders key).length < MAX_ITERATIONS then (s.poolOrders key).length
          else MAX_ITERATIONS)) with
    | none =>
      rw [hfm] at h
      dsimp only at h
      rw [Except.ok.injEq, Prod.mk.injEq] at h
      obtain ⟨_, h⟩ := h
      rw [Prod.mk.injEq] at h
      exact absurd h.2.symm hne
    | some id =>
      rw [hfm] at h
      dsimp only at h
      by_cases h5 : s.escrow (if z then key.currency1 else key.currency0)
          < (s.orders id).amountIn
      · rw [if_pos h5] at h; cases h
      rw [if_neg h5] at h
      by_cases h6 : toInt128 (s.orders id).amountIn = -((2 ^ 127 : Nat) : Int)
      · rw [if_pos h6] at h; cases h
      rw [if_neg h6] at h
      rw [Except.ok.injEq, Prod.mk.injEq] at h
      obtain ⟨_, h⟩ := h
      rw [Prod.mk.injEq] at h
      rw [← h.2]
      refine ⟨?_, ?_, ?_⟩ <;>
        simp [List.findIdx_cons, isActiveFlip, isStateMutation, isExternalTransfer]
  · intro s sender orderId key ben tOk s' tr h
    obtain ⟨-, -, -, -, -, -, htr⟩ := triggerOrder_ok_shape h
    rw [htr]
    refine ⟨?_, ?_⟩ <;>
      simp [List.findIdx_cons, isActiveFlip, isExternalTransfer]

set_option maxRecDepth 100000

/-- Witness for the amended C1 at concrete fills on `demoState`. -/
theorem fill_effect_order_witness :
    ((swapTrace (matchScan demoState 9 demoKey false 200 10)).findIdx isActiveFlip = 0 ∧
     (swapTrace (matchScan demoState 9 demoKey false 200 10)).findIdx isStateMutation = 0 ∧
     2 ≤ (swapTrace (matchScan demoState 9 demoKey false 200 10)).findIdx isExternalTransfer) ∧
    ((fillTrace (triggerOrder demoState 5 0 demoKey 88 true)).findIdx isExternalTransfer = 0 ∧
     (fillTrace (triggerOrder demoState 5 0 demoKey 88 true)).findIdx isActiveFlip = 2) :=
  ⟨fill_effect_order.1 demoState 9 demoKey false 200 10 _ _ _ rfl (by decide),
   fill_effect_order.2 demoState 5 0 demoKey 88 true _ _ rfl⟩

end Arena

namespace Arena

/-- The post-state of a fill-path call (the pre-deployment state on revert;
only used on successful calls). -/
def fillState : Except Err (State × List Event) → State
  | .ok (s', _) => s'
  | .error _ => initialState

theorem triggerOrder_notSentinel {s : State} {sender : Addr} {orderId : Nat}
    {key : PoolKey} {ben : Addr} {tOk : Bool} (h : sender ≠ s.sentinel) :
    triggerOrder s sender orderId key ben tOk = .error .NotSentinel := by
  unfold triggerOrder
  dsimp only
  rw [if_pos h]

theorem triggerOrder_notActive {s : State} {sender : Addr} {orderId : Nat}
    {key : PoolKey} {ben : Addr} {tOk : Bool} (h1 : sender = s.sentinel)
    (h2 : (s.orders orderId).active = false) :
    triggerOrder s sender orderId key ben tOk = .error .OrderNotActive := by
  unfold triggerOrder
  dsimp only
  rw [if_neg (by simp [h1]), if_pos h2]

theorem step_trigger_error {s : State} {sender : Addr} {orderId : Nat}
    {key : PoolKey} {ben : Addr} {tOk : Bool} {e : Err}
    (h : triggerOrder s sender orderId key ben tOk = .error e) :
    step s (Op.trigger sender orderId key ben tOk) = (s, []) := by
  simp only [step]
  rw [h]

theorem step_cancel_error {s : State} {sender : Addr} {orderId : Nat}
    {key : PoolKey} {e : Err}
    (h : cancelOrder s sender orderId key = .error e) :
    step s (Op.cancel sender orderId key) = (s, []) := by
  simp only [step]
  rw [h]

theorem step_post_error {s : State} {sender origin : Addr} {key : PoolKey}
    {st0 : Bool} {aIn mOut dur ts : Nat} {tOk : Bool} {e : Err}
    (h : postOrder s sender origin key st0 aIn mOut dur ts tOk = .error e) :
    step s (Op.post sender origin key st0 aIn mOut dur ts tOk) = (s, []) := by
  simp only [step]
  rw [h]

/-- C4: the privileged fill path succeeds at most once per order id — a
non-sentinel caller always fails closed with `NotSentinel`; an inactive
order always fails with `OrderNotActive`; any error reverts (same state, no
external transfer); and after one successful `triggerOrder` the order is
inactive, so every further `triggerOrder` on the same id fails
(`OrderNotActive` for the sentinel, `NotSentinel` for anyone else). -/
theorem triggerOrder_at_most_once :
    (∀ (s : State) (sender : Addr) (orderId : Nat) (key : PoolKey) (ben : Addr)
        (tOk : Bool), sender ≠ s.sentinel →
      triggerOrder s sender orderId key ben tOk = .error .NotSentinel) ∧
    (∀ (s : State) (sender : Addr) (orderId : Nat) (key : PoolKey) (ben : Addr)
        (tOk : Bool), sender = s.sentinel → (s.orders orderId).active = false →
      triggerOrder s sender orderId key ben tOk = .error .OrderNotActive) ∧
    (∀ (s : State) (sender : Addr) (orderId : Nat) (key : PoolKey) (ben : Addr)
        (tOk : Bool) (e : Err),
      triggerOrder s sender orderId key ben tOk = .error e →
      step s (Op.trigger sender orderId key ben tOk) = (s, [])) ∧
    (∀ (s : State) (sender : Addr) (orderId : Nat) (key : PoolKey) (ben : Addr)
        (tOk : Bool) (s' : State) (tr : List Event),
      triggerOrder s sender orderId key ben tOk = .ok (s', tr) →
      (s'.orders orderId).active = false ∧ s'.sentinel = s.sentinel ∧
      (∀ (sender2 : Addr) (key2 : PoolKey) (ben2 : Addr) (tOk2 : Bool),
        triggerOrder s' sender2 orderId key2 ben2 tOk2
          = .error (if sender2 = s.sentinel then Err.OrderNotActive else Err.NotSentinel))) := by
  refine ⟨fun s sender orderId key ben tOk h => triggerOrder_notSentinel h,
    fun s sender orderId key ben tOk h1 h2 => triggerOrder_notActive h1 h2,
    fun s sender orderId key ben tOk e h => step_trigger_error h, ?_⟩
  intro s sender orderId key ben tOk s' tr h
  obtain ⟨hsen, hact, hkey, htOk, hesc, hs', htr⟩ := triggerOrder_ok_shape h
  subst hs'
  have hact' : (({ s with
      orders := Function.update s.orders orderId { s.orders orderId with active := false }
      poolOrders := Function.update s.poolOrders key (removeOrder (s.poolOrders key) orderId)
      escrow := Function.update s.escrow
        (if (s.orders orderId).sellToken0 then key.currency0 else key.currency1)
        (s.escrow (if (s.orders orderId).sellToken0 then key.currency0 else key.currency1)
          - (s.orders orderId).amountIn) } : State).orders orderId).active = false := by
    dsimp only
    rw [Function.update_same]
  refine ⟨hact', rfl, ?_⟩
  intro sender2 key2 ben2 tOk2
  by_cases hs2 : sender2 = s.sentinel
  · rw [if_pos hs2]
    exact triggerOrder_notActive hs2 hact'
  · rw [if_neg hs2]
    exact triggerOrder_notSentinel hs2

/-- Witness for C4: on `demoState` — a spoofed caller (6) fails closed; the
sentinel (5) on an id never issued (1, inactive by default) fails with
`OrderNotActive` and the reverted step changes nothing; after the sentinel
fills order 0, the order is inactive and a replayed `triggerOrder` fails. -/
theorem triggerOrder_at_most_once_witness :
    triggerOrder demoState 6 0 demoKey 88 true = .error .NotSentinel ∧
    triggerOrder demoState 5 1 demoKey 88 true = .error .OrderNotActive ∧
    step demoState (Op.trigger 6 0 demoKey 88 true) = (demoState, []) ∧
    (((fillState (triggerOrder demoState 5 0 demoKey 88 true)).orders 0).active = false ∧
      triggerOrder (fillState (triggerOrder demoState 5 0 demoKey 88 true)) 5 0 demoKey 99 true
        = .error (if (5 : Nat) = demoState.sentinel then Err.OrderNotActive
            else Err.NotSentinel)) :=
  ⟨triggerOrder_at_most_once.1 demoState 6 0 demoKey 88 true (by decide),
   triggerOrder_at_most_once.2.1 demoState 5 1 demoKey 88 true rfl (by decide),
   triggerOrder_at_most_once.2.2.1 demoState 6 0 demoKey 88 true Err.NotSentinel
     (triggerOrder_at_most_once.1 demoState 6 0 demoKey 88 true (by decide)),
   (triggerOrder_at_most_once.2.2.2 demoState 5 0 demoKey 88 true _ _ rfl).1,
   ((triggerOrder_at_most_once.2.2.2 demoState 5 0 demoKey 88 true _ _ rfl).2.2 5 demoKey 99 true)⟩

end Arena

namespace Arena

theorem cancelOrder_notFound {s : State} {sender : Addr} {orderId : Nat}
    {key : PoolKey} (h : s.nextOrderId ≤ orderId) :
    cancelOrder s sender orderId key = .error .OrderNotFound := by
  unfold cancelOrder
  dsimp only
  rw [if_pos h]

theorem cancelOrder_unauthorized {s : State} {sender : Addr} {orderId : Nat}
    {key : PoolKey} (h1 : orderId < s.nextOrderId)
    (h2 : sender ≠ (s.orders orderId).maker) :
    cancelOrder s sender orderId key = .error .Unauthorized := by
  unfold cancelOrder
  dsimp only
  rw [if_neg (by omega), if_pos h2]

theorem cancelOrder_notActive {s : State} {sender : Addr} {orderId : Nat}
    {key : PoolKey} (h1 : orderId < s.nextOrderId)
    (h2 : sender = (s.orders orderId).maker)
    (h3 : (s.orders orderId).active = false) :
    cancelOrder s sender orderId key = .error .OrderNotActive := by
  unfold cancelOrder
  dsimp only
  rw [if_neg (by omega), if_neg (by simp [h2]), if_pos h3]

theorem cancelOrder_poolMismatch {s : State} {sender : Addr} {orderId : Nat}
    {key : PoolKey} (h1 : orderId < s.nextOrderId)
    (h2 : sender = (s.orders orderId).maker)
    (h3 : (s.orders orderId).active = true)
    (h4 : key ≠ (s.orders orderId).poolId) :
    cancelOrder s sender orderId key = .error .PoolMismatch := by
  unfold cancelOrder
  dsimp only
  rw [if_neg (by omega), if_neg (by simp [h2]), if_neg (by simp [h3]), if_pos h4]

/-- C9: `cancelOrder` fails with `OrderNotFound` on an unissued id,
`Unauthorized` when the caller is not the maker, `OrderNotActive` on an
already-inactive order, `PoolMismatch` when the supplied venue's fingerprint
differs from the stored one (in that precedence); every failure reverts with
no state change and no transfer; on success the order is marked inactive,
its id leaves the venue index, and the full locked `amountIn` is transferred
back to the maker. -/
theorem cancelOrder_spec :
    (∀ (s : State) (sender : Addr) (orderId : Nat) (key : PoolKey),
      s.nextOrderId ≤ orderId →
      cancelOrder s sender orderId key = .error .OrderNotFound) ∧
    (∀ (s : State) (sender : Addr) (orderId : Nat) (key : PoolKey),
      orderId < s.nextOrderId → sender ≠ (s.orders orderId).maker →
      cancelOrder s sender orderId key = .error .Unauthorized) ∧
    (∀ (s : State) (sender : Addr) (orderId : Nat) (key : PoolKey),
      orderId < s.nextOrderId → sender = (s.orders orderId).maker →
      (s.orders orderId).active = false →
      cancelOrder s sender orderId key = .error .OrderNotActive) ∧
    (∀ (s : State) (sender : Addr) (orderId : Nat) (key : PoolKey),
      orderId < s.nextOrderId → sender = (s.orders orderId).maker →
      (s.orders orderId).active = true → key ≠ (s.orders orderId).poolId →
      cancelOrder s sender orderId key = .error .PoolMismatch) ∧
    (∀ (s : State) (sender : Addr) (orderId : Nat) (key : PoolKey) (e : Err),
      cancelOrder s sender orderId key = .error e →
      step s (Op.cancel sender orderId key) = (s, [])) ∧
    (∀ (s : State) (sender : Addr) (orderId : Nat) (key : PoolKey) (s' : State)
        (tr : List Event),
      cancelOrder s sender orderId key = .ok (s', tr) →
      (s'.orders orderId).active = false ∧
      ((s.poolOrders key).Nodup → orderId ∉ s'.poolOrders key) ∧
      tr = [.setInactive orderId,
            .indexRemove key orderId,
            .transfer (if (s.orders orderId).sellToken0 then key.currency0 else key.currency1)
              hookAddr (s.orders orderId).maker (s.orders orderId).amountIn]) := by
  refine ⟨fun s sender orderId key h => cancelOrder_notFound h,
    fun s sender orderId key h1 h2 => cancelOrder_unauthorized h1 h2,
    fun s sender orderId key h1 h2 h3 => cancelOrder_notActive h1 h2 h3,
    fun s sender orderId key h1 h2 h3 h4 => cancelOrder_poolMismatch h1 h2 h3 h4,
    fun s sender orderId key e h => step_cancel_error h, ?_⟩
  intro s sender orderId key s' tr h
  obtain ⟨hlt, hmk, hact, hkey, hesc, hs', htr⟩ := cancelOrder_ok_shape h
  subst hs'
  refine ⟨?_, ?_, htr⟩
  · dsimp only
    rw [Function.update_same]
  · intro hnd
    dsimp only
    rw [Function.update_same]
    exact not_mem_removeOrder hnd orderId

/-- Witness for C9: the four failures, the reverting step, and a successful
cancel of order 0 on `demoState` (refunding 10 of token 11 to maker 7). -/
theorem cancelOrder_spec_witness :
    cancelOrder demoState 7 2 demoKey = .error .OrderNotFound ∧
    cancelOrder demoState 8 0 demoKey = .error .Unauthorized ∧
    cancelOrder (fillState (triggerOrder demoState 5 0 demoKey 88 true)) 7 0 demoKey
      = .error .OrderNotActive ∧
    cancelOrder demoState 7 0 ⟨22, 11, 300, 6, 1⟩ = .error .PoolMismatch ∧
    step demoState (Op.cancel 7 2 demoKey) = (demoState, []) ∧
    ((fillState (cancelOrder demoState 7 0 demoKey)).orders 0).active = false ∧
    0 ∉ (fillState (cancelOrder demoState 7 0 demoKey)).poolOrders demoKey :=
  ⟨cancelOrder_spec.1 demoState 7 2 demoKey (by decide),
   cancelOrder_spec.2.1 demoState 8 0 demoKey (by decide) (by decide),
   cancelOrder_spec.2.2.1 (fillState (triggerOrder demoState 5 0 demoKey 88 true)) 7 0 demoKey
     (by decide) (by decide) (by decide),
   cancelOrder_spec.2.2.2.1 demoState 7 0 ⟨22, 11, 300, 6, 1⟩
     (by decide) (by decide) (by decide) (by decide),
   cancelOrder_spec.2.2.2.2.1 demoState 7 2 demoKey Err.OrderNotFound
     (cancelOrder_spec.1 demoState 7 2 demoKey (by decide)),
   (cancelOrder_spec.2.2.2.2.2 demoState 7 0 demoKey _ _ rfl).1,
   (cancelOrder_spec.2.2.2.2.2 demoState 7 0 demoKey _ _ rfl).2.1 (by decide)⟩

end Arena

namespace Arena

theorem matchScan_preserves_nextOrderId {s : State} {sender : Addr} {key : PoolKey}
    {z : Bool} {amt ts : Nat} {d : SwapDelta} {s' : State} {tr : List Event}
    (h : matchScan s sender key z amt ts = .ok (d, s', tr)) :
    s'.nextOrderId = s.nextOrderId := by
  unfold matchScan at h
  dsimp only at h
  cases hfm : findMatch s ts z amt ((s.poolOrders key).take
      (if (s.poolOrders key).length < MAX_ITERATIONS then (s.poolOrders key).length
        else MAX_ITERATIONS)) with
  | none =>
    rw [hfm] at h
    dsimp only at h
    rw [Except.ok.injEq, Prod.mk.injEq] at h
    obtain ⟨-, h⟩ := h
    rw [Prod.mk.injEq] at h
    rw [← h.1]
  | some id =>
    rw [hfm] at h
    dsimp only at h
    by_cases h5 : s.escrow (if z then key.currency1 else key.currency0)
        < (s.orders id).amountIn
    · rw [if_pos h5] at h; cases h
    rw [if_neg h5] at h
    by_cases h6 : toInt128 (s.orders id).amountIn = -((2 ^ 127 : Nat) : Int)
    · rw [if_pos h6] at h; cases h
    rw [if_neg h6] at h
    rw [Except.ok.injEq, Prod.mk.injEq] at h
    obtain ⟨-, h⟩ := h
    rw [Prod.mk.injEq] at h
    rw [← h.1]

theorem beforeSwap_preserves_nextOrderId {s : State} {msgSender sender : Addr}
    {key : PoolKey} {z : Bool} {a : Int} {ts : Nat} {d : SwapDelta} {s' : State}
    {tr : List Event}
    (h : beforeSwap s msgSender sender key z a ts = .ok (d, s', tr)) :
    s'.nextOrderId = s.nextOrderId := by
  unfold beforeSwap at h
  by_cases h1 : msgSender ≠ poolManagerAddr
  · rw [if_pos h1] at h; cases h
  rw [if_neg h1] at h
  by_cases h2 : a = intMin256
  · rw [if_pos h2] at h; cases h
  rw [if_neg h2] at h
  by_cases h3 : 0 ≤ a
  · rw [if_pos h3] at h
    rw [Except.ok.injEq, Prod.mk.injEq] at h
    obtain ⟨-, h⟩ := h
    rw [Prod.mk.injEq] at h
    rw [← h.1]
  · rw [if_neg h3] at h
    exact matchScan_preserves_nextOrderId h

/-- `nextOrderId` never decreases across any external call. -/
theorem step_nextOrderId_mono (s : State) (op : Op) :
    s.nextOrderId ≤ (step s op).1.nextOrderId := by
  cases op with
  | post sender origin key st0 aIn mOut dur ts tOk =>
    simp only [step]
    cases hop : postOrder s sender origin key st0 aIn mOut dur ts tOk with
    | ok v =>
      obtain ⟨id, s', tr⟩ := v
      obtain ⟨-, -, -, hs', -⟩ := postOrder_ok_shape hop
      subst hs'
      dsimp only
      omega
    | error e => exact Nat.le_refl _
  | cancel sender orderId key =>
    simp only [step]
    cases hop : cancelOrder s sender orderId key with
    | ok v =>
      obtain ⟨s', tr⟩ := v
      obtain ⟨-, -, -, -, -, hs', -⟩ := cancelOrder_ok_shape hop
      subst hs'
      exact Nat.le_refl _
    | error e => exact Nat.le_refl _
  | trigger sender orderId key ben tOk =>
    simp only [step]
    cases hop : triggerOrder s sender orderId key ben tOk with
    | ok v =>
      obtain ⟨s', tr⟩ := v
      obtain ⟨-, -, -, -, -, hs', -⟩ := triggerOrder_ok_shape hop
      subst hs'
      exact Nat.le_refl _
    | error e => exact Nat.le_refl _
  | swap msgSender sender key z a ts =>
    simp only [step]
    cases hop : beforeSwap s msgSender sender key z a ts with
    | ok v =>
      obtain ⟨d, s', tr⟩ := v
      have := beforeSwap_preserves_nextOrderId hop
      dsimp only
      omega
    | error e => exact Nat.le_refl _
  | setSent a => exact Nat.le_refl _

theorem runOps_nextOrderId_mono (s : State) (ops : List Op) :
    s.nextOrderId ≤ (runOps s ops).nextOrderId := by
  induction ops generalizing s with
  | nil => exact Nat.le_refl _
  | cons op rest ih => exact Nat.le_trans (step_nextOrderId_mono s op) (ih _)

/-- The id a successful `postOrder` returns. -/
def postId : Except Err (Nat × State × List Event) → Nat
  | .ok (id, _, _) => id
  | .error _ => 0

/-- The post-state of a successful `postOrder`. -/
def postState : Except Err (Nat × State × List Event) → State
  | .ok (_, s', _) => s'
  | .error _ => initialState

/-- C8: `postOrder` with `amountIn = 0` always fails with `InvalidAmounts`
and any failure (including a failing deposit transfer) reverts with no state
created; on success it atomically locks `amountIn` of the selling asset in
escrow, records the order, appends the id to the venue index, and returns
`nextOrderId`, which strictly exceeds every id returned by any earlier
successful post. -/
theorem postOrder_spec :
    (∀ (s : State) (sender origin : Addr) (key : PoolKey) (st0 : Bool)
        (mOut dur ts : Nat) (tOk : Bool),
      postOrder s sender origin key st0 0 mOut dur ts tOk = .error .InvalidAmounts) ∧
    (∀ (s : State) (sender origin : Addr) (key : PoolKey) (st0 : Bool)
        (aIn mOut dur ts : Nat) (tOk : Bool) (e : Err),
      postOrder s sender origin key st0 aIn mOut dur ts tOk = .error e →
      step s (Op.post sender origin key st0 aIn mOut dur ts tOk) = (s, [])) ∧
    (∀ (s : State) (sender origin : Addr) (key : PoolKey) (st0 : Bool)
        (aIn mOut dur ts : Nat) (tOk : Bool) (id : Nat) (s' : State) (tr : List Event),
      postOrder s sender origin key st0 aIn mOut dur ts tOk = .ok (id, s', tr) →
      id = s.nextOrderId ∧ s'.nextOrderId = s.nextOrderId + 1 ∧
      s'.poolOrders key = s.poolOrders key ++ [id] ∧
      (s'.orders id).active = true ∧ (s'.orders id).amountIn = aIn ∧
      (s'.orders id).maker = sender ∧
      s'.escrow (if st0 then key.currency0 else key.currency1)
        = s.escrow (if st0 then key.currency0 else key.currency1) + aIn ∧
      tr = [.orderStored id,
            .transfer (if st0 then key.currency0 else key.currency1) sender hookAddr aIn,
            .indexAppend key id]) ∧
    (∀ (s : State) (sender origin : Addr) (key : PoolKey) (st0 : Bool)
        (aIn mOut dur ts : Nat) (tOk : Bool) (id1 : Nat) (s1 : State) (tr1 : List Event)
        (ops : List Op) (sender2 origin2 : Addr) (key2 : PoolKey) (st02 : Bool)
        (aIn2 mOut2 dur2 ts2 : Nat) (tOk2 : Bool) (id2 : Nat) (s2 : State)
        (tr2 : List Event),
      postOrder s sender origin key st0 aIn mOut dur ts tOk = .ok (id1, s1, tr1) →
      postOrder (runOps s1 ops) sender2 origin2 key2 st02 aIn2 mOut2 dur2 ts2 tOk2
        = .ok (id2, s2, tr2) →
      id1 < id2) := by
  refine ⟨?_, fun s sender origin key st0 aIn mOut dur ts tOk e h => step_post_error h,
    ?_, ?_⟩
  · intro s sender origin key st0 mOut dur ts tOk
    unfold postOrder
    rw [if_pos rfl]
  · intro s sender origin key st0 aIn mOut dur ts tOk id s' tr h
    obtain ⟨h0, htOk, hid, hs', htr⟩ := postOrder_ok_shape h
    subst hid
    subst hs'
    refine ⟨rfl, rfl, ?_, ?_, ?_, ?_, ?_, htr⟩
    · dsimp only
      rw [Function.update_same]
    · dsimp only
      rw [Function.update_same]
    · dsimp only
      rw [Function.update_same]
    · dsimp only
      rw [Function.update_same]
    · dsimp only
      rw [Function.update_same]
  · intro s sender origin key st0 aIn mOut dur ts tOk id1 s1 tr1 ops sender2 origin2
      key2 st02 aIn2 mOut2 dur2 ts2 tOk2 id2 s2 tr2 h1 h2
    obtain ⟨-, -, hid1, hs1, -⟩ := postOrder_ok_shape h1
    obtain ⟨-, -, hid2, -, -⟩ := postOrder_ok_shape h2
    have hmono := runOps_nextOrderId_mono s1 ops
    subst hid1
    subst hid2
    subst hs1
    dsimp only at hmono
    omega

/-- Witness for C8: a zero-amount post fails and reverts; a successful post
on `demoState` returns id 1, records the order, locks 50 of token 22, and a
later post (after an unrelated cancel) returns the strictly larger id 2. -/
theorem postOrder_spec_witness :
    postOrder demoState 7 7 demoKey true 0 60 100 5 true = .error .InvalidAmounts ∧
    step demoState (Op.post 7 7 demoKey true 0 60 100 5 true) = (demoState, []) ∧
    postId (postOrder demoState 7 9 demoKey false 50 60 100 5 true) = 1 ∧
    ((postState (postOrder demoState 7 9 demoKey false 50 60 100 5 true)).orders 1).active
      = true ∧
    (postState (postOrder demoState 7 9 demoKey false 50 60 100 5 true)).escrow 22
      = demoState.escrow 22 + 50 ∧
    postId (postOrder demoState 7 9 demoKey false 50 60 100 5 true)
      < postId (postOrder
          (runOps (postState (postOrder demoState 7 9 demoKey false 50 60 100 5 true))
            [Op.cancel 7 0 demoKey]) 3 3 demoKey true 20 1 1 1 true) :=
  ⟨postOrder_spec.1 demoState 7 7 demoKey true 60 100 5 true,
   postOrder_spec.2.1 demoState 7 7 demoKey true 0 60 100 5 true Err.InvalidAmounts
     (postOrder_spec.1 demoState 7 7 demoKey true 60 100 5 true),
   (postOrder_spec.2.2.1 demoState 7 9 demoKey false 50 60 100 5 true _ _ _ rfl).1,
   (postOrder_spec.2.2.1 demoState 7 9 demoKey false 50 60 100 5 true _ _ _ rfl).2.2.2.1,
   (postOrder_spec.2.2.1 demoState 7 9 demoKey false 50 60 100 5 true _ _ _ rfl).2.2.2.2.2.2.1,
   postOrder_spec.2.2.2 demoState 7 9 demoKey false 50 60 100 5 true _ _ _
     [Op.cancel 7 0 demoKey] 3 3 demoKey true 20 1 1 1 true _ _ _ rfl rfl⟩

end Arena

namespace Arena

/-- The post-state of a swap-path call (pre-deployment state on revert; only
used on successful calls). -/
def swapState : Except Err (SwapDelta × State × List Event) → State
  | .ok (_, s', _) => s'
  | .error _ => initialState

/-- The delta a swap-path call returned (zero on revert). -/
def swapDeltaOf : Except Err (SwapDelta × State × List Event) → SwapDelta
  | .ok (d, _, _) => d
  | .error _ => zeroDelta

/-- C6: a matching exact-input swap fills the *first* scanned order that is
active, unexpired, opposite-sided and whose `minAmountOut` the taker
covers; settlement takes exactly `minAmountOut` of the taker's offered
asset for the maker and sends the maker's full escrowed `amountIn` towards
the taker (via the pool manager), with no refund of the taker's surplus;
and no other order record changes, so at most one order turns inactive. -/
theorem beforeSwap_match_spec :
    (∀ (s : State) (ts : Nat) (z : Bool) (amt : Nat) (l : List Nat) (id : Nat),
      findMatch s ts z amt l = some id → id ∈ l ∧ compatible s ts z amt id) ∧
    (∀ (s : State) (ts : Nat) (z : Bool) (amt : Nat) (pre suf : List Nat) (id : Nat),
      findMatch s ts z amt (pre ++ id :: suf) = some id → id ∉ pre →
      ∀ j ∈ pre, ¬ compatible s ts z amt j) ∧
    (∀ (s : State) (sender : Addr) (key : PoolKey) (z : Bool) (a : Int) (ts : Nat)
        (d : SwapDelta) (s' : State) (tr : List Event) (id : Nat),
      a ≠ intMin256 → a < 0 →
      findMatch s ts z ((-a).toNat % 2 ^ 128) ((s.poolOrders key).take MAX_ITERATIONS)
        = some id →
      beforeSwap s poolManagerAddr sender key z a ts = .ok (d, s', tr) →
      d = ⟨toInt128 (s.orders id).minAmountOut, -(toInt128 (s.orders id).amountIn)⟩ ∧
      tr = [.setInactive id,
            .indexRemove key id,
            .pmTake (if z then key.currency0 else key.currency1)
              (s.orders id).maker (s.orders id).minAmountOut,
            .pmSync (if z then key.currency1 else key.currency0),
            .transfer (if z then key.currency1 else key.currency0) hookAddr poolManagerAddr
              (s.orders id).amountIn,
            .pmSettle] ∧
      (s'.orders id).active = false ∧
      (∀ j, j ≠ id → s'.orders j = s.orders j)) := by
  refine ⟨fun s ts z amt l id h => findMatch_eq_some h,
    fun s ts z amt pre suf id h hnm => findMatch_first suf h hnm, ?_⟩
  intro s sender key z a ts d s' tr id hmin hneg hfm h
  rw [beforeSwap_exactInput hmin hneg] at h
  unfold matchScan at h
  dsimp only at h
  rw [take_maxIter_eq] at h
  rw [hfm] at h
  dsimp only at h
  by_cases h5 : s.escrow (if z then key.currency1 else key.currency0)
      < (s.orders id).amountIn
  · rw [if_pos h5] at h; cases h
  rw [if_neg h5] at h
  by_cases h6 : toInt128 (s.orders id).amountIn = -((2 ^ 127 : Nat) : Int)
  · rw [if_pos h6] at h; cases h
  rw [if_neg h6] at h
  rw [Except.ok.injEq, Prod.mk.injEq] at h
  obtain ⟨hd, h⟩ := h
  rw [Prod.mk.injEq] at h
  obtain ⟨hs', htr⟩ := h
  subst hs'
  refine ⟨hd.symm, htr.symm, ?_, ?_⟩
  · dsimp only
    rw [Function.update_same]
  · intro j hj
    dsimp only
    rw [Function.update_noteq hj]

/-- Witness for C6 on `demoState`: the scan yields order 0 (skipping the
incompatible unissued entry 5), it is compatible, the taker's 200 offered
units fill it for exactly 5 (the ask) against the full escrowed 10, and
order 1 is untouched. -/
theorem beforeSwap_match_spec_witness :
    (0 ∈ [5, 0] ∧ compatible demoState 10 false 200 0) ∧
    ¬ compatible demoState 10 false 200 5 ∧
    swapDeltaOf (beforeSwap demoState poolManagerAddr 9 demoKey false (-200) 10)
      = ⟨5, -10⟩ ∧
    ((swapState (beforeSwap demoState poolManagerAddr 9 demoKey false (-200) 10)).orders 0).active
      = false ∧
    (swapState (beforeSwap demoState poolManagerAddr 9 demoKey false (-200) 10)).orders 1
      = demoState.orders 1 := by
  have hfm : findMatch demoState 10 false ((- -200 : Int).toNat % 2 ^ 128)
      (List.take MAX_ITERATIONS (demoState.poolOrders demoKey)) = some 0 := by decide
  have hok : beforeSwap demoState poolManagerAddr 9 demoKey false (-200) 10 = .ok
      (swapDeltaOf (beforeSwap demoState poolManagerAddr 9 demoKey false (-200) 10),
       swapState (beforeSwap demoState poolManagerAddr 9 demoKey false (-200) 10),
       swapTrace (beforeSwap demoState poolManagerAddr 9 demoKey false (-200) 10)) := rfl
  have hmain := beforeSwap_match_spec.2.2 demoState 9 demoKey false (-200) 10 _ _ _ 0
    (by decide) (by decide) hfm hok
  exact ⟨beforeSwap_match_spec.1 demoState 10 false 200 [5, 0] 0 (by decide),
    beforeSwap_match_spec.2.1 demoState 10 false 200 [5] [] 0 (by decide) (by decide) 5
      (by decide),
    hmain.1, hmain.2.2.1, hmain.2.2.2 1 (by decide)⟩

end Arena

namespace Arena

/-- C7: the match scan looks at only the first `MAX_ITERATIONS = 50` index
entries (the `maxIter` bound is exactly a take-50), and an exact-input swap
whose 50-entry scanned prefix holds no compatible order returns the zero
delta with the state — orders, index entries, escrow — completely
unchanged, even if a compatible order sits beyond the cap. -/
theorem beforeSwap_scan_cap :
    (∀ l : List Nat,
      l.take (if l.length < MAX_ITERATIONS then l.length else MAX_ITERATIONS)
        = l.take 50) ∧
    (∀ (s : State) (sender : Addr) (key : PoolKey) (z : Bool) (a : Int) (ts : Nat),
      a ≠ intMin256 → a < 0 →
      findMatch s ts z ((-a).toNat % 2 ^ 128) ((s.poolOrders key).take 50) = none →
      beforeSwap s poolManagerAddr sender key z a ts = .ok (zeroDelta, s, [])) := by
  refine ⟨fun l => take_maxIter_eq l, ?_⟩
  intro s sender key z a ts hmin hneg hfm
  rw [beforeSwap_exactInput hmin hneg]
  exact matchScan_none_shape hfm

/-- 51 orders on one venue: index positions 0–49 hold orders asking a
million (incompatible with a 200-unit taker), position 50 holds a cheap,
fully compatible order. -/
def cap51State : State :=
  { sentinel := 5, nextOrderId := 51
    orders := fun i =>
      if i < 50 then
        { maker := 100 + i, sellToken0 := true, amountIn := 10, minAmountOut := 1000000
          expiry := 9999, active := true, poolId := demoKey, isHuman := false }
      else if i = 50 then
        { maker := 77, sellToken0 := true, amountIn := 10, minAmountOut := 5
          expiry := 9999, active := true, poolId := demoKey, isHuman := false }
      else defaultOrder
    poolOrders := fun k => if k = demoKey then List.range 51 else []
    escrow := fun a => if a = 11 then 510 else 0 }

/-- Witness for C7: on `cap51State` the compatible order is at index
position 51 (id 50), yet the capped scan reports no match and the swap
leaves the state untouched. -/
theorem beforeSwap_scan_cap_witness :
    (List.range 51).take
        (if (List.range 51).length < MAX_ITERATIONS then (List.range 51).length
          else MAX_ITERATIONS)
      = (List.range 51).take 50 ∧
    beforeSwap cap51State poolManagerAddr 9 demoKey false (-200) 10
      = .ok (zeroDelta, cap51State, []) ∧
    compatible cap51State 10 false 200 50 ∧
    50 ∈ cap51State.poolOrders demoKey := by
  refine ⟨beforeSwap_scan_cap.1 (List.range 51),
    beforeSwap_scan_cap.2 cap51State 9 demoKey false (-200) 10
      (by decide) (by decide) (by decide), by decide, by decide⟩

end Arena

namespace Arena

/-- The scan-and-settle path can fail with `TransferFailed` or `Panic`, but
never with `AmountOverflow`: the overflow guard sits before truncation. -/
theorem matchScan_ne_amountOverflow {s : State} {sender : Addr} {key : PoolKey}
    {z : Bool} {amt ts : Nat} :
    matchScan s sender key z amt ts ≠ .error .AmountOverflow := by
  unfold matchScan
  dsimp only
  cases hfm : findMatch s ts z amt ((s.poolOrders key).take
      (if (s.poolOrders key).length < MAX_ITERATIONS then (s.poolOrders key).length
        else MAX_ITERATIONS)) with
  | none =>
    dsimp only
    intro hc
    cases hc
  | some id =>
    dsimp only
    by_cases h5 : s.escrow (if z then key.currency1 else key.currency0)
        < (s.orders id).amountIn
    · rw [if_pos h5]
      intro hc
      exact Err.noConfusion (Except.error.inj hc)
    rw [if_neg h5]
    by_cases h6 : toInt128 (s.orders id).amountIn = -((2 ^ 127 : Nat) : Int)
    · rw [if_pos h6]
      intro hc
      exact Err.noConfusion (Except.error.inj hc)
    rw [if_neg h6]
    intro hc
    cases hc

/-- C10: an exact-input swap whose absolute amount exceeds `2^128 - 1` (and
is not the guarded `int256` minimum) is not rejected: `beforeSwap` reaches
the scan with the amount silently reduced modulo `2^128`, never raises
`AmountOverflow`, and (when the residue is nonzero) behaves exactly like a
swap that offered only the truncated amount. -/
theorem beforeSwap_truncates_amount :
    ∀ (s : State) (sender : Addr) (key : PoolKey) (z : Bool) (a : Int) (ts : Nat),
      a ≠ intMin256 → a < 0 → 2 ^ 128 ≤ (-a).toNat →
      beforeSwap s poolManagerAddr sender key z a ts ≠ .error .AmountOverflow ∧
      beforeSwap s poolManagerAddr sender key z a ts
        = matchScan s sender key z ((-a).toNat % 2 ^ 128) ts ∧
      (0 < (-a).toNat % 2 ^ 128 →
        beforeSwap s poolManagerAddr sender key z a ts
          = beforeSwap s poolManagerAddr sender key z
              (-(((-a).toNat % 2 ^ 128 : Nat) : Int)) ts) := by
  intro s sender key z a ts hmin hneg hbig
  refine ⟨?_, beforeSwap_exactInput hmin hneg, ?_⟩
  · rw [beforeSwap_exactInput hmin hneg]
    exact matchScan_ne_amountOverflow
  · intro hm
    have h1 : (-a).toNat % 2 ^ 128 < 2 ^ 128 := Nat.mod_lt _ (by positivity)
    have hmin' : -(((-a).toNat % 2 ^ 128 : Nat) : Int) ≠ intMin256 := by
      intro hc
      unfold intMin256 at hc
      rw [neg_inj, Int.natCast_inj] at hc
      rw [hc] at h1
      exact absurd h1 (by norm_num)
    have hneg' : -(((-a).toNat % 2 ^ 128 : Nat) : Int) < 0 := by omega
    rw [beforeSwap_exactInput hmin hneg, beforeSwap_exactInput hmin' hneg', neg_neg,
      Int.toNat_natCast, Nat.mod_eq_of_lt h1]

/-- Witness for C10 on `demoState`: the taker offers `2^128 + 50` units; the
call is not rejected, runs the scan on the truncated 50 units, and equals
the plain 50-unit swap (which in fact matches order 0, asking only 5). -/
theorem beforeSwap_truncates_amount_witness :
    beforeSwap demoState poolManagerAddr 9 demoKey false (-((2 ^ 128 + 50 : Nat) : Int)) 10
      ≠ .error .AmountOverflow ∧
    beforeSwap demoState poolManagerAddr 9 demoKey false (-((2 ^ 128 + 50 : Nat) : Int)) 10
      = matchScan demoState 9 demoKey false ((-(-((2 ^ 128 + 50 : Nat) : Int))).toNat % 2 ^ 128) 10 ∧
    beforeSwap demoState poolManagerAddr 9 demoKey false (-((2 ^ 128 + 50 : Nat) : Int)) 10
      = beforeSwap demoState poolManagerAddr 9 demoKey false
          (-(((-(-((2 ^ 128 + 50 : Nat) : Int))).toNat % 2 ^ 128 : Nat) : Int)) 10 := by
  have h := beforeSwap_truncates_amount demoState 9 demoKey false (-((2 ^ 128 + 50 : Nat) : Int)) 10
    (by decide) (by decide) (by decide)
  exact ⟨h.1, h.2.1, h.2.2 (by decide)⟩

end Arena

namespace Sentinel

/-- C3: the cross-domain payload the sentinel emits is addressed at a
two-argument function `triggerOrder(uint256,address)`, but the hook's
privileged fill entry point has the three-argument signature
`triggerOrder(uint256,(address,address,uint24,int24,address),address)` —
the selectors differ, so the emitted authorization cannot invoke the hook's
`triggerOrder`.  Concretely: with one armed lower trigger (limit `2e18`) and
a price update decoding to `1e18`, `react` fires exactly one callback whose
payload carries the mismatched signature. -/
theorem sentinel_payload_signature_mismatch :
    (react ⟨42, 88, [⟨true, true, 2 * 10 ^ 18, 7, 9⟩]⟩
        ⟨L1_CHAIN_ID, SWAP_TOPIC_0, 0, 0, 2 ^ 96, 0, 0⟩).2
      = [.flip 0, .callback 0 L2_CHAIN_ID 42 500000 ⟨sentinelPayloadSig, 7, 88⟩] ∧
    sentinelPayloadSig ≠ arenaHookTriggerOrderSig := by
  constructor
  · decide
  · decide

end Sentinel

namespace Sentinel

theorem evIdx_of_isCallbackAt {i : Nat} {e : SEvent} (h : isCallbackAt i e = true) :
    evIdx e = i := by
  cases e with
  | flip j => simp [isCallbackAt] at h
  | callback j c t g p => simpa [isCallbackAt, evIdx] using h

theorem reactLoop_evIdx_ge (benef hook price : Nat) :
    ∀ (ts : List Trigger) (i0 : Nat) (e : SEvent),
      e ∈ (reactLoop benef hook price i0 ts).2 → i0 ≤ evIdx e := by
  intro ts
  induction ts with
  | nil => intro i0 e h; simp [reactLoop] at h
  | cons t rest ih =>
    intro i0 e h
    rw [reactLoop] at h
    by_cases h1 : t.active = false
    · rw [if_pos h1] at h
      exact Nat.le_of_succ_le (ih (i0 + 1) e h)
    rw [if_neg h1] at h
    by_cases h2 : hit price t = true
    · rw [if_pos h2] at h
      rcases List.mem_cons.mp h with he | h
      · subst he; exact Nat.le_refl _
      rcases List.mem_cons.mp h with he | h
      · subst he; exact Nat.le_refl _
      · exact Nat.le_of_succ_le (ih (i0 + 1) e h)
    · rw [if_neg h2] at h
      exact Nat.le_of_succ_le (ih (i0 + 1) e h)

theorem reactLoop_countP_lt (benef hook price : Nat) (ts : List Trigger)
    (i0 j : Nat) (hj : j < i0) :
    (reactLoop benef hook price i0 ts).2.countP (isCallbackAt j) = 0 := by
  rw [List.countP_eq_zero]
  intro e he hc
  have h1 := reactLoop_evIdx_ge benef hook price ts i0 e he
  rw [evIdx_of_isCallbackAt hc] at h1
  omega

theorem reactLoop_length (benef hook price : Nat) :
    ∀ (ts : List Trigger) (i0 : Nat),
      (reactLoop benef hook price i0 ts).1.length = ts.length := by
  intro ts
  induction ts with
  | nil => intro i0; rfl
  | cons t rest ih =>
    intro i0
    rw [reactLoop]
    by_cases h1 : t.active = false
    · rw [if_pos h1]
      simp [ih (i0 + 1)]
    rw [if_neg h1]
    by_cases h2 : hit price t = true
    · rw [if_pos h2]
      simp [ih (i0 + 1)]
    · rw [if_neg h2]
      simp [ih (i0 + 1)]

/-- The per-trigger effect of one evaluation pass. -/
def fireOne (price : Nat) (t : Trigger) : Trigger :=
  if t.active = true ∧ hit price t = true then { t with active := false } else t

theorem reactLoop_getElem (benef hook price : Nat) :
    ∀ (ts : List Trigger) (i0 k : Nat),
      (reactLoop benef hook price i0 ts).1[k]? = (ts[k]?).map (fireOne price) := by
  intro ts
  induction ts with
  | nil => intro i0 k; simp [reactLoop]
  | cons t rest ih =>
    intro i0 k
    rw [reactLoop]
    by_cases h1 : t.active = false
    · rw [if_pos h1]
      cases k with
      | zero => simp [fireOne, h1]
      | succ k => simpa using ih (i0 + 1) k
    rw [if_neg h1]
    have h1' : t.active = true := by
      cases hb : t.active
      · exact absurd hb h1
      · rfl
    by_cases h2 : hit price t = true
    · rw [if_pos h2]
      cases k with
      | zero => simp [fireOne, h1', h2]
      | succ k => simpa using ih (i0 + 1) k
    · rw [if_neg h2]
      cases k with
      | zero => simp [fireOne, h1', h2]
      | succ k => simpa using ih (i0 + 1) k

theorem reactLoop_countP (benef hook price : Nat) :
    ∀ (ts : List Trigger) (i0 k : Nat),
      (reactLoop benef hook price i0 ts).2.countP (isCallbackAt (i0 + k))
        = (ts[k]?).elim 0
            (fun t => if t.active = true ∧ hit price t = true then 1 else 0) := by
  intro ts
  induction ts with
  | nil => intro i0 k; simp [reactLoop]
  | cons t rest ih =>
    intro i0 k
    rw [reactLoop]
    by_cases h1 : t.active = false
    · rw [if_pos h1]
      cases k with
      | zero =>
        rw [Nat.add_zero]
        rw [reactLoop_countP_lt benef hook price rest (i0 + 1) i0 (by omega)]
        simp [h1]
      | succ k =>
        rw [show i0 + (k + 1) = (i0 + 1) + k by omega]
        rw [ih (i0 + 1) k]
        simp
    rw [if_neg h1]
    have h1' : t.active = true := by
      cases hb : t.active
      · exact absurd hb h1
      · rfl
    by_cases h2 : hit price t = true
    · rw [if_pos h2]
      cases k with
      | zero =>
        rw [Nat.add_zero]
        rw [List.countP_cons, List.countP_cons,
          reactLoop_countP_lt benef hook price rest (i0 + 1) i0 (by omega)]
        simp [isCallbackAt, h1', h2]
      | succ k =>
        rw [List.countP_cons, List.countP_cons,
          show i0 + (k + 1) = (i0 + 1) + k by omega, ih (i0 + 1) k]
        simp [isCallbackAt, isFlipAt]
        omega
    · rw [if_neg h2]
      cases k with
      | zero =>
        rw [Nat.add_zero]
        rw [reactLoop_countP_lt benef hook price rest (i0 + 1) i0 (by omega)]
        simp [h2]
      | succ k =>
        rw [show i0 + (k + 1) = (i0 + 1) + k by omega]
        rw [ih (i0 + 1) k]
        simp

end Sentinel

namespace Sentinel

theorem reactLoop_flip_before_callback (benef hook price : Nat) :
    ∀ (ts : List Trigger) (i0 j : Nat),
      (reactLoop benef hook price i0 ts).2.countP (isCallbackAt j) ≠ 0 →
      ∃ n, (reactLoop benef hook price i0 ts).2.findIdx (isFlipAt j) = n ∧
        (reactLoop benef hook price i0 ts).2.findIdx (isCallbackAt j) = n + 1 := by
  intro ts
  induction ts with
  | nil => intro i0 j h; simp [reactLoop] at h
  | cons t rest ih =>
    intro i0 j h
    rw [reactLoop] at h ⊢
    by_cases h1 : t.active = false
    · rw [if_pos h1] at h ⊢
      exact ih (i0 + 1) j h
    rw [if_neg h1] at h ⊢
    by_cases h2 : hit price t = true
    · rw [if_pos h2] at h ⊢
      by_cases hj : j = i0
      · subst hj
        refine ⟨0, ?_, ?_⟩
        · simp [List.findIdx_cons, isFlipAt]
        · simp [List.findIdx_cons, isFlipAt, isCallbackAt]
      · have hj' : ¬ i0 = j := fun hx => hj hx.symm
        have hz1 : isCallbackAt j (SEvent.flip i0) = false := by simp [isCallbackAt]
        have hz2 : isCallbackAt j (SEvent.callback i0 L2_CHAIN_ID hook 500000
            ⟨sentinelPayloadSig, t.orderId, benef⟩) = false := by
          simp [isCallbackAt, hj']
        rw [List.countP_cons, List.countP_cons, hz1, hz2] at h
        have hc : (reactLoop benef hook price (i0 + 1) rest).2.countP (isCallbackAt j) ≠ 0 := by
          simpa using h
        obtain ⟨n, hn1, hn2⟩ := ih (i0 + 1) j hc
        have hf1 : isFlipAt j (SEvent.flip i0) = false := by simp [isFlipAt, hj']
        have hf2 : isFlipAt j (SEvent.callback i0 L2_CHAIN_ID hook 500000
            ⟨sentinelPayloadSig, t.orderId, benef⟩) = false := by simp [isFlipAt]
        refine ⟨n + 2, ?_, ?_⟩
        · rw [List.findIdx_cons, List.findIdx_cons, hf1, hf2, hn1]
          rfl
        · rw [List.findIdx_cons, List.findIdx_cons, hz1, hz2, hn2]
          rfl
    · rw [if_neg h2] at h ⊢
      exact ih (i0 + 1) j h

end Sentinel

namespace Sentinel

theorem react_triggers_length (st : SState) (log : LogRecord) :
    (react st log).1.triggers.length = st.triggers.length := by
  unfold react
  by_cases h1 : log.chain_id ≠ L1_CHAIN_ID ∨ log.topic_0 ≠ SWAP_TOPIC_0
  · rw [if_pos h1]
  rw [if_neg h1]
  cases hp : currentPriceOf log.sqrtPriceX96 with
  | none => rfl
  | some price => exact reactLoop_length st.beneficiary st.arenaHook price st.triggers 0

theorem react_activeAt_of_inactive {st : SState} {log : LogRecord} {i : Nat}
    (h : activeAt st.triggers i = false) :
    activeAt (react st log).1.triggers i = false := by
  unfold react
  by_cases h1 : log.chain_id ≠ L1_CHAIN_ID ∨ log.topic_0 ≠ SWAP_TOPIC_0
  · rw [if_pos h1]; exact h
  rw [if_neg h1]
  cases hp : currentPriceOf log.sqrtPriceX96 with
  | none => exact h
  | some price =>
    dsimp only
    unfold activeAt at h ⊢
    rw [reactLoop_getElem]
    cases hts : st.triggers[i]? with
    | none => simp
    | some t =>
      rw [hts] at h
      dsimp only at h
      simp [fireOne, h]

theorem react_countP_le_one (st : SState) (log : LogRecord) (i : Nat) :
    (react st log).2.countP (isCallbackAt i) ≤ 1 := by
  unfold react
  by_cases h1 : log.chain_id ≠ L1_CHAIN_ID ∨ log.topic_0 ≠ SWAP_TOPIC_0
  · rw [if_pos h1]; simp
  rw [if_neg h1]
  cases hp : currentPriceOf log.sqrtPriceX96 with
  | none => simp
  | some price =>
    dsimp only
    have hc := reactLoop_countP st.beneficiary st.arenaHook price st.triggers 0 i
    rw [Nat.zero_add] at hc
    rw [hc]
    cases st.triggers[i]? with
    | none => simp
    | some t =>
      dsimp only [Option.elim]
      split
      · exact Nat.le_refl _
      · exact Nat.zero_le _

theorem react_countP_zero_of_inactive {st : SState} {log : LogRecord} {i : Nat}
    (h : activeAt st.triggers i = false) :
    (react st log).2.countP (isCallbackAt i) = 0 := by
  unfold react
  by_cases h1 : log.chain_id ≠ L1_CHAIN_ID ∨ log.topic_0 ≠ SWAP_TOPIC_0
  · rw [if_pos h1]; rfl
  rw [if_neg h1]
  cases hp : currentPriceOf log.sqrtPriceX96 with
  | none => rfl
  | some price =>
    dsimp only
    have hc := reactLoop_countP st.beneficiary st.arenaHook price st.triggers 0 i
    rw [Nat.zero_add] at hc
    rw [hc]
    unfold activeAt at h
    cases hts : st.triggers[i]? with
    | none => simp
    | some t =>
      rw [hts] at h
      dsimp only at h
      simp [h]

theorem react_inactive_after_emit {st : SState} {log : LogRecord} {i : Nat}
    (h : (react st log).2.countP (isCallbackAt i) ≠ 0) :
    activeAt (react st log).1.triggers i = false ∧ i < st.triggers.length := by
  unfold react at h ⊢
  by_cases h1 : log.chain_id ≠ L1_CHAIN_ID ∨ log.topic_0 ≠ SWAP_TOPIC_0
  · rw [if_pos h1] at h; exact absurd rfl h
  rw [if_neg h1] at h ⊢
  cases hp : currentPriceOf log.sqrtPriceX96 with
  | none => rw [hp] at h; exact absurd rfl h
  | some price =>
    rw [hp] at h
    dsimp only at h ⊢
    have hc := reactLoop_countP st.beneficiary st.arenaHook price st.triggers 0 i
    rw [Nat.zero_add] at hc
    rw [hc] at h
    cases hts : st.triggers[i]? with
    | none => rw [hts] at h; exact absurd rfl h
    | some t =>
      rw [hts] at h
      by_cases hcond : t.active = true ∧ hit price t = true
      · constructor
        · unfold activeAt
          rw [reactLoop_getElem, hts]
          simp [fireOne, hcond]
        · by_contra hlen
          rw [List.getElem?_eq_none (by omega)] at hts
          cases hts
      · rw [Option.elim_some, if_neg hcond] at h
        exact absurd rfl h

theorem react_flip_before_callback {st : SState} {log : LogRecord} {i : Nat}
    (h : (react st log).2.countP (isCallbackAt i) ≠ 0) :
    ∃ n, (react st log).2.findIdx (isFlipAt i) = n ∧
      (react st log).2.findIdx (isCallbackAt i) = n + 1 := by
  unfold react at h ⊢
  by_cases h1 : log.chain_id ≠ L1_CHAIN_ID ∨ log.topic_0 ≠ SWAP_TOPIC_0
  · rw [if_pos h1] at h; exact absurd rfl h
  rw [if_neg h1] at h ⊢
  cases hp : currentPriceOf log.sqrtPriceX96 with
  | none => rw [hp] at h; exact absurd rfl h
  | some price =>
    rw [hp] at h
    dsimp only at h ⊢
    exact reactLoop_flip_before_callback st.beneficiary st.arenaHook price st.triggers 0 i h

theorem runSentinel_cons (st : SState) (op : SOp) (ops : List SOp) :
    runSentinel st (op :: ops)
      = ((runSentinel (sstep st op).1 ops).1,
         (sstep st op).2 ++ (runSentinel (sstep st op).1 ops).2) := rfl

theorem runSentinel_countP_zero : ∀ (ops : List SOp) (st : SState) (i : Nat),
    activeAt st.triggers i = false → i < st.triggers.length →
    (runSentinel st ops).2.countP (isCallbackAt i) = 0 := by
  intro ops
  induction ops with
  | nil => intro st i _ _; rfl
  | cons op rest ih =>
    intro st i hact hlen
    rw [runSentinel_cons]
    dsimp only
    rw [List.countP_append]
    cases op with
    | reactOp log =>
      have hstep : sstep st (SOp.reactOp log) = react st log := rfl
      rw [hstep]
      rw [react_countP_zero_of_inactive hact]
      rw [ih (react st log).1 i (react_activeAt_of_inactive hact)
        (by rw [react_triggers_length]; exact hlen)]
    | armOp orderId maker limitPrice isLower =>
      have hstep : sstep st (SOp.armOp orderId maker limitPrice isLower)
          = (addTrigger st orderId maker limitPrice isLower, []) := rfl
      rw [hstep]
      dsimp only
      have hact' : activeAt (addTrigger st orderId maker limitPrice isLower).triggers i
          = false := by
        unfold activeAt at hact ⊢
        unfold addTrigger
        dsimp only
        rw [List.getElem?_append_left hlen]
        exact hact
      have hlen' : i < (addTrigger st orderId maker limitPrice isLower).triggers.length := by
        unfold addTrigger
        dsimp only
        rw [List.length_append]
        omega
      rw [ih _ i hact' hlen']
      rfl

theorem runSentinel_countP_le_one : ∀ (ops : List SOp) (st : SState) (i : Nat),
    (runSentinel st ops).2.countP (isCallbackAt i) ≤ 1 := by
  intro ops
  induction ops with
  | nil => intro st i; exact Nat.zero_le _
  | cons op rest ih =>
    intro st i
    rw [runSentinel_cons]
    dsimp only
    rw [List.countP_append]
    cases op with
    | reactOp log =>
      have hstep : sstep st (SOp.reactOp log) = react st log := rfl
      rw [hstep]
      by_cases hz : (react st log).2.countP (isCallbackAt i) = 0
      · rw [hz]
        simpa using ih (react st log).1 i
      · obtain ⟨ha, hl⟩ := react_inactive_after_emit hz
        have h0 := runSentinel_countP_zero rest (react st log).1 i ha
          (by rw [react_triggers_length]; exact hl)
        have hle := react_countP_le_one st log i
        omega
    | armOp orderId maker limitPrice isLower =>
      have hstep : sstep st (SOp.armOp orderId maker limitPrice isLower)
          = (addTrigger st orderId maker limitPrice isLower, []) := rfl
      rw [hstep]
      simpa using ih _ i

end Sentinel

namespace Sentinel

/-- C5: a trigger causes at most one authorization.  Within one `react`
pass, an emitted callback for trigger `i` sits immediately after that
trigger's one-shot flip in the action trace (flip at `n`, callback at
`n + 1`) and the trigger ends the pass disarmed; across any sequence of
price-update passes and `addTrigger` calls, at most one callback attributed
to trigger index `i` is ever emitted. -/
theorem trigger_fires_at_most_once :
    (∀ (st : SState) (log : LogRecord) (i : Nat),
      (react st log).2.countP (isCallbackAt i) ≠ 0 →
      activeAt (react st log).1.triggers i = false ∧
      ∃ n, (react st log).2.findIdx (isFlipAt i) = n ∧
        (react st log).2.findIdx (isCallbackAt i) = n + 1) ∧
    (∀ (st : SState) (ops : List SOp) (i : Nat),
      (runSentinel st ops).2.countP (isCallbackAt i) ≤ 1) :=
  ⟨fun _ _ _ h => ⟨(react_inactive_after_emit h).1, react_flip_before_callback h⟩,
   fun st ops i => runSentinel_countP_le_one ops st i⟩

/-- Witness for C5: one armed lower trigger (limit `2e18`), a price update
decoding to `1e18`: the pass disarms it with the flip right before the
callback, and two consecutive identical passes still emit at most once. -/
theorem trigger_fires_at_most_once_witness :
    (activeAt (react ⟨43, 90, [⟨true, true, 2 * 10 ^ 18, 3, 4⟩]⟩
        ⟨L1_CHAIN_ID, SWAP_TOPIC_0, 0, 0, 2 ^ 96, 0, 0⟩).1.triggers 0 = false ∧
      ∃ n, (react ⟨43, 90, [⟨true, true, 2 * 10 ^ 18, 3, 4⟩]⟩
          ⟨L1_CHAIN_ID, SWAP_TOPIC_0, 0, 0, 2 ^ 96, 0, 0⟩).2.findIdx (isFlipAt 0) = n ∧
        (react ⟨43, 90, [⟨true, true, 2 * 10 ^ 18, 3, 4⟩]⟩
          ⟨L1_CHAIN_ID, SWAP_TOPIC_0, 0, 0, 2 ^ 96, 0, 0⟩).2.findIdx (isCallbackAt 0)
          = n + 1) ∧
    (runSentinel ⟨43, 90, [⟨true, true, 2 * 10 ^ 18, 3, 4⟩]⟩
        [SOp.reactOp ⟨L1_CHAIN_ID, SWAP_TOPIC_0, 0, 0, 2 ^ 96, 0, 0⟩,
         SOp.reactOp ⟨L1_CHAIN_ID, SWAP_TOPIC_0, 0, 0, 2 ^ 96, 0, 0⟩]).2.countP
      (isCallbackAt 0) ≤ 1 := by
  have h1 := trigger_fires_at_most_once.1 ⟨43, 90, [⟨true, true, 2 * 10 ^ 18, 3, 4⟩]⟩
    ⟨L1_CHAIN_ID, SWAP_TOPIC_0, 0, 0, 2 ^ 96, 0, 0⟩ 0 (by decide)
  have h2 := trigger_fires_at_most_once.2 ⟨43, 90, [⟨true, true, 2 * 10 ^ 18, 3, 4⟩]⟩
    [SOp.reactOp ⟨L1_CHAIN_ID, SWAP_TOPIC_0, 0, 0, 2 ^ 96, 0, 0⟩,
     SOp.reactOp ⟨L1_CHAIN_ID, SWAP_TOPIC_0, 0, 0, 2 ^ 96, 0, 0⟩] 0
  exact ⟨⟨h1.1, h1.2⟩, h2⟩

end Sentinel
